import Mathlib

/-
  Verification development for the react-component-cloner repository.

  The definitions below are shallow embeddings of the TypeScript source:
    - src/src/lib/style-extractor/style-extractor.ts (style extraction,
      strategy detection, JSX generation)
    - src/unnamed/part_000 (type-generator: inferType)
    - src/unnamed/part_001 (fiber-traversal, hooks-extractor,
      metadata-extractor, component-identifier)
    - src/unnamed/part_002 (fiber-accessor)

  Modelling conventions:
    - JavaScript runtime values are modelled by the inductive `JSValue`.
      JS numbers are modelled as integers (the claims only exercise
      integral values); `JSValue.thrower` models a property value whose
      getter throws when the property is read - it is the modelling
      device for the "a getter throws" failure mode of the spec and only
      appears as an object field.
    - Fallible JS computations are modelled in `Except Unit`.
    - String-pattern operations (regexes, startsWith, toLowerCase, trim)
      are re-implemented over the character list of the string so that
      every definition evaluates by kernel reduction; each such helper
      documents the exact source regex or method it models.
-/

set_option maxHeartbeats 1000000

/-- Model of a JavaScript runtime value as consumed by the extractor code. -/
inductive JSValue : Type where
  | null : JSValue
  | undef : JSValue
  | bool (b : Bool) : JSValue
  | num (n : Int) : JSValue
  | str (s : String) : JSValue
  | func (name : String) : JSValue
  | domElem (tagName : String) : JSValue
  | arr (elems : List JSValue) : JSValue
  | obj (fields : List (String × JSValue)) : JSValue
  | thrower : JSValue

/-- JS truthiness. `thrower` never reaches a truthiness test in the code
paths exercised by the claims; it is assigned `true` arbitrarily. -/
def truthy : JSValue → Bool
  | .null => false
  | .undef => false
  | .bool b => b
  | .num n => n != 0
  | .str s => s != ""
  | _ => true

/-- Property read `v[k]`: objects look the key up among their own fields,
anything else yields `undefined` (the code only reads properties after a
truthiness guard, so the null/undefined-access TypeError is unreachable). -/
def getField (v : JSValue) (k : String) : JSValue :=
  match v with
  | .obj fs =>
    match fs.find? (fun kv => kv.1 == k) with
    | some kv => kv.2
    | none => .undef
  | _ => (.undef)

/-- The `k in v` / `v.hasOwnProperty(k)` test. The model gives objects no
prototype chain, so the two coincide on it. -/
def hasKeyJS (v : JSValue) (k : String) : Bool :=
  match v with
  | .obj fs => fs.any (fun kv => kv.1 == k)
  | _ => false

/-- `typeof v === 'object'` (true for null as in JS; every use site guards
with a truthiness check first). -/
def isObjectType : JSValue → Bool
  | .null => true
  | .arr _ => true
  | .obj _ => true
  | .domElem _ => true
  | _ => false

/-- The JS `a || b` expression. -/
def jsOr (a b : JSValue) : JSValue :=
  if truthy a then a else b

/-- Recognizes the modelling marker for a throwing property getter. -/
def isThrower : JSValue → Bool
  | .thrower => true
  | _ => false

/-- `typeof v === 'function'`. -/
def isFunctionValue : JSValue → Bool
  | .func _ => true
  | _ => false

/-- ASCII letter, the `[A-Za-z]` character class. -/
def isAsciiLetter (c : Char) : Bool :=
  (('A' ≤ c) && (c ≤ 'Z')) || (('a' ≤ c) && (c ≤ 'z'))

/-- ASCII letter or digit, the `[A-Za-z0-9]` character class. -/
def isAsciiAlnum (c : Char) : Bool :=
  isAsciiLetter c || (('0' ≤ c) && (c ≤ '9'))

/-- List-level prefix test. -/
def isPreL : List Char → List Char → Bool
  | [], _ => true
  | _ :: _, [] => false
  | p :: ps, c :: cs => (p == c) && isPreL ps cs

/-- JS `s.startsWith(p)` (also the anchored regex test `/^p.../`),
re-implemented over character lists for kernel evaluation. -/
def strStartsWith (s p : String) : Bool :=
  isPreL p.data s.data

/-- ASCII lower-casing of one character; HTML tag names are ASCII, which is
all `isSelfClosingTag` feeds to JS `toLowerCase`. -/
def charLowerAscii (c : Char) : Char :=
  if ('A' ≤ c) && (c ≤ 'Z') then Char.ofNat (c.toNat + 32) else c

/-- JS `s.toLowerCase()` restricted to ASCII input. -/
def lowerStr (s : String) : String :=
  String.mk (s.data.map charLowerAscii)

/-- Whitespace for the model of JS `String.prototype.trim` (the JSX text
produced in the claims only ever carries these whitespace characters). -/
def isWsChar (c : Char) : Bool :=
  c == ' ' || c == '\n' || c == '\t' || c == '\r'

/-- JS `s.trim()`. -/
def trimStr (s : String) : String :=
  String.mk (((s.data.dropWhile isWsChar).reverse.dropWhile isWsChar).reverse)

namespace StyleExtractor

/-- style-extractor.ts `DEFAULT_VALUES`: CSS properties that are safe to
ignore if they have default values. Keys reproduced verbatim, including
their camelCase spelling for multi-word properties. -/
def DEFAULT_VALUES : List (String × List String) :=
  [("display", ["inline", "block"]),
   ("position", ["static"]),
   ("visibility", ["visible"]),
   ("overflow", ["visible"]),
   ("float", ["none"]),
   ("clear", ["none"]),
   ("boxSizing", ["content-box"]),
   ("cursor", ["auto"]),
   ("pointerEvents", ["auto"]),
   ("userSelect", ["auto"]),
   ("textAlign", ["start", "left"]),
   ("verticalAlign", ["baseline"]),
   ("whiteSpace", ["normal"]),
   ("wordBreak", ["normal"]),
   ("fontWeight", ["400", "normal"]),
   ("fontStyle", ["normal"]),
   ("textDecoration", ["none"]),
   ("textTransform", ["none"]),
   ("listStyle", ["none"]),
   ("borderStyle", ["none"]),
   ("borderWidth", ["0px"]),
   ("margin", ["0px"]),
   ("padding", ["0px"])]

/-- style-extractor.ts `IMPORTANT_PROPERTIES`: the allow-list of computed
properties to extract, reproduced verbatim (kebab-case names). -/
def IMPORTANT_PROPERTIES : List String :=
  ["display", "position", "top", "right", "bottom", "left",
   "width", "height", "min-width", "max-width", "min-height", "max-height",
   "margin", "margin-top", "margin-right", "margin-bottom", "margin-left",
   "padding", "padding-top", "padding-right", "padding-bottom", "padding-left",
   "box-sizing", "overflow", "overflow-x", "overflow-y", "z-index",
   "flex", "flex-direction", "flex-wrap", "flex-grow", "flex-shrink",
   "flex-basis", "justify-content", "align-items", "align-content",
   "align-self", "order", "gap", "row-gap", "column-gap",
   "grid", "grid-template-columns", "grid-template-rows",
   "grid-template-areas", "grid-auto-columns", "grid-auto-rows",
   "grid-auto-flow", "grid-column", "grid-row", "grid-area",
   "font-family", "font-size", "font-weight", "font-style", "line-height",
   "letter-spacing", "text-align", "text-decoration", "text-transform",
   "white-space", "word-break", "word-wrap", "color",
   "background", "background-color", "background-image", "background-size",
   "background-position", "background-repeat", "background-attachment",
   "border", "border-width", "border-style", "border-color", "border-radius",
   "border-top", "border-right", "border-bottom", "border-left",
   "border-top-left-radius", "border-top-right-radius",
   "border-bottom-right-radius", "border-bottom-left-radius",
   "box-shadow", "opacity", "filter", "backdrop-filter", "transform",
   "transition", "animation",
   "cursor", "pointer-events", "user-select", "outline"]

/-- style-extractor.ts `isDefaultValue`: look the property up in
`DEFAULT_VALUES` (no entry means not a default) and test list membership. -/
def isDefaultValue (property value : String) : Bool :=
  match DEFAULT_VALUES.find? (fun kv => kv.1 == property) with
  | none => false
  | some kv => kv.2.contains value

/-- style-extractor.ts `extractComputedStyles`. `window.getComputedStyle`
is modelled by the resolved-value function `computed`; the styles record is
modelled by the association list built in iteration order; the truthiness
test on the resolved value is nonemptiness of the string. -/
def extractComputedStyles (computed : String → String) : List (String × String) :=
  IMPORTANT_PROPERTIES.filterMap (fun property =>
    let value := computed property
    if value != "" && !isDefaultValue property value then some (property, value)
    else none)

/-- The exact-match alternatives of the first tailwind pattern
`/^(flex|grid|block|inline|hidden)$/`. -/
def tailwindExact : List String := ["flex", "grid", "block", "inline", "hidden"]

/-- Alternatives of the anchored dash regex on w, h, m, p, px, py, mx, my, mt, mr, mb, ml, pt, pr, pb, pl. -/
def tailwindDash1 : List String :=
  ["w", "h", "m", "p", "px", "py", "mx", "my", "mt", "mr", "mb", "ml",
   "pt", "pr", "pb", "pl"]

/-- Alternatives of the anchored dash regex on text, font, leading, tracking. -/
def tailwindDash2 : List String := ["text", "font", "leading", "tracking"]

/-- Alternatives of the anchored dash regex on bg, border, rounded, shadow. -/
def tailwindDash3 : List String := ["bg", "border", "rounded", "shadow"]

/-- Alternatives of `/^(hover|focus|active|disabled):/`. -/
def tailwindColon1 : List String := ["hover", "focus", "active", "disabled"]

/-- Alternatives of `/^(sm|md|lg|xl|2xl):/`. -/
def tailwindColon2 : List String := ["sm", "md", "lg", "xl", "2xl"]

/-- `tailwindPatterns.some((pattern) => pattern.test(cls))` from
style-extractor.ts `isTailwindElement`: a class name matches one of the six
fixed utility-class regexes. -/
def matchesTailwindPattern (cls : String) : Bool :=
  tailwindExact.contains cls
  || tailwindDash1.any (fun p => strStartsWith cls (p ++ "-"))
  || tailwindDash2.any (fun p => strStartsWith cls (p ++ "-"))
  || tailwindDash3.any (fun p => strStartsWith cls (p ++ "-"))
  || tailwindColon1.any (fun p => strStartsWith cls (p ++ ":"))
  || tailwindColon2.any (fun p => strStartsWith cls (p ++ ":"))

/-- The `tailwindCount` local of `isTailwindElement`. -/
def tailwindCount (classes : List String) : Nat :=
  (classes.filter matchesTailwindPattern).length

/-- style-extractor.ts `isTailwindElement`:
`tailwindCount > 0 && tailwindCount / classes.length > 0.3`.
The float comparison `count / len > 0.3` is modelled by the exact rational
comparison `10 * count > 3 * len`: for the class-list sizes a DOM element
can carry, the IEEE-754 division differs from the exact ratio by far less
than the distance of any ratio other than 3/10 from the literal, and the
ratio 3/10 itself rounds to exactly the double of the literal 0.3, so both
comparisons decide identically (including the empty-list case, which the
`count > 0` conjunct already rejects). -/
def isTailwindElement (classes : List String) : Bool :=
  decide (0 < tailwindCount classes)
  && decide (3 * classes.length < 10 * tailwindCount classes)

/-- The css-module regex `/^[A-Za-z]+_[A-Za-z]+__[A-Za-z0-9]+$/` decided on
a character list. The letter blocks are parsed maximally, which is
equivalent to the regex: a `[A-Za-z]+` block can only stop where the next
regex token `_` matches, and `_` is not a letter. -/
def cssModuleMatchList (cs : List Char) : Bool :=
  let sp1 := cs.span isAsciiLetter
  match sp1.2 with
  | '_' :: r2 =>
    let sp2 := r2.span isAsciiLetter
    (match sp2.2 with
     | '_' :: '_' :: r4 =>
       let sp3 := r4.span isAsciiAlnum
       !sp1.1.isEmpty && !sp2.1.isEmpty && !sp3.1.isEmpty && sp3.2.isEmpty
     | _ => false)
  | _ => false

/-- `cssModulePattern.test cls` for the hashed-class regex of
`isCSSModulesElement`. -/
def cssModuleMatch (cls : String) : Bool :=
  cssModuleMatchList cls.data

/-- style-extractor.ts `isCSSModulesElement`: `hashedCount > 0`. -/
def isCSSModulesElement (classes : List String) : Bool :=
  decide (0 < (classes.filter cssModuleMatch).length)

/-- All characters alphanumeric and at least one of them: the
`[A-Za-z0-9]+$` tail of the styled-components regex. -/
def allAlnum1 (cs : List Char) : Bool :=
  !cs.isEmpty && cs.all isAsciiAlnum

/-- The styled-components/Emotion regex `/^(sc-|css-)[A-Za-z0-9]+$/`
decided on a character list (the two alternatives are distinguished by the
first character, so the match is deterministic). -/
def styledComponentsMatchList : List Char → Bool
  | 's' :: 'c' :: '-' :: rest => allAlnum1 rest
  | 'c' :: 's' :: 's' :: '-' :: rest => allAlnum1 rest
  | _ => false

/-- `styledComponentsPattern.test cls`. -/
def styledComponentsMatch (cls : String) : Bool :=
  styledComponentsMatchList cls.data

/-- The slice of an HTMLElement that style-strategy detection reads:
`hasAttribute('data-styled')` and `element.style.length` (the number of
declared inline style properties). -/
structure DOMElementModel where
  dataStyled : Bool
  styleLength : Nat

/-- style-extractor.ts `isStyledComponentsElement`:
`styledCount > 0 || hasStyledAttr`. -/
def isStyledComponentsElement (element : DOMElementModel)
    (classes : List String) : Bool :=
  decide (0 < (classes.filter styledComponentsMatch).length)
  || element.dataStyled

/-- The `StyleStrategy` union of src/src/types. -/
inductive StyleStrategy : Type where
  | tailwind : StyleStrategy
  | cssModule : StyleStrategy
  | styledComponents : StyleStrategy
  | inline : StyleStrategy
  | plainCss : StyleStrategy
deriving DecidableEq, Repr

/-- style-extractor.ts `detectStyleStrategy`: the priority-ordered cascade
tailwind, css-module, styled-components, inline, plain-css. -/
def detectStyleStrategy (element : DOMElementModel)
    (classes : List String) : StyleStrategy :=
  if isTailwindElement classes then .tailwind
  else if isCSSModulesElement classes then .cssModule
  else if isStyledComponentsElement element classes then .styledComponents
  else if 0 < element.styleLength then .inline
  else .plainCss

end StyleExtractor

namespace StyleExtractor

/-- The kebab-case allow-list names whose `DEFAULT_VALUES` entry is keyed
in camelCase instead (the multi-word default-table keys of the claim). -/
def multiWordComputedKeys : List String :=
  ["box-sizing", "font-weight", "font-style", "text-align",
   "text-decoration", "text-transform", "white-space", "word-break",
   "border-style", "border-width", "pointer-events", "user-select"]

/-- The single-word property names that the claim allows the default filter
to act on. -/
def singleWordDefaultKeys : List String :=
  ["display", "position", "visibility", "overflow", "float", "clear",
   "cursor", "margin", "padding"]

end StyleExtractor

/-- C10: the computed-style default filter never applies to a multi-word
CSS property: `DEFAULT_VALUES` keys them in camelCase while
`extractComputedStyles` looks them up under the kebab-case allow-list
name, so `isDefaultValue` is constantly false there and the resolved value
is always retained (for instance font-weight 400 and text-align left);
every property the filter can drop is one of the single-word keys
display, position, visibility, overflow, float, clear, cursor, margin,
padding. -/
theorem claim10_default_filter_skips_multiword :
    (∀ p ∈ StyleExtractor.multiWordComputedKeys,
      ∀ v, StyleExtractor.isDefaultValue p v = false) ∧
    (∀ computed : String → String, ∀ p ∈ StyleExtractor.multiWordComputedKeys,
      computed p ≠ "" →
      (p, computed p) ∈ StyleExtractor.extractComputedStyles computed) ∧
    (∀ p v, p ∈ StyleExtractor.IMPORTANT_PROPERTIES →
      StyleExtractor.isDefaultValue p v = true →
      p ∈ StyleExtractor.singleWordDefaultKeys) ∧
    StyleExtractor.isDefaultValue "font-weight" "400" = false ∧
    StyleExtractor.isDefaultValue "text-align" "left" = false := by
  have hnone : ∀ p ∈ StyleExtractor.multiWordComputedKeys,
      ∀ v, StyleExtractor.isDefaultValue p v = false := by
    intro p hp v
    fin_cases hp <;> rfl
  refine ⟨hnone, ?_, ?_, rfl, rfl⟩
  · intro computed p hp hne
    have hmem : p ∈ StyleExtractor.IMPORTANT_PROPERTIES := by
      fin_cases hp <;> decide
    refine List.mem_filterMap.mpr ⟨p, hmem, ?_⟩
    simp only [hnone p hp (computed p), Bool.not_false, Bool.and_true]
    simp [bne_iff_ne, hne]
  · have key : ∀ p ∈ StyleExtractor.IMPORTANT_PROPERTIES,
        (StyleExtractor.DEFAULT_VALUES.find? (fun kv => kv.1 == p)).isSome →
        p ∈ StyleExtractor.singleWordDefaultKeys := by decide
    intro p v hp hd
    apply key p hp
    unfold StyleExtractor.isDefaultValue at hd
    cases hfind : StyleExtractor.DEFAULT_VALUES.find? (fun kv => kv.1 == p) with
    | none => rw [hfind] at hd; exact absurd hd (by simp)
    | some kv => simp [hfind]

/-- Witness for C10: with a computed-style source resolving font-weight to
400, the kebab-case lookup misses the camelCase default entry and the pair
is retained. -/
theorem claim10_default_filter_skips_multiword_witness :
    ("font-weight", "400") ∈ StyleExtractor.extractComputedStyles
      (fun p => if p == "font-weight" then "400" else "") := by
  have h := claim10_default_filter_skips_multiword.2.1
    (fun p => if p == "font-weight" then "400" else "")
    "font-weight" (by decide) (by decide)
  exact h

/-- C1: style-strategy detection is a first-match-wins cascade in the order
tailwind, css-module, styled-components, inline, plain-css (the inductive
return type has exactly these five values, so exactly one is returned);
the tailwind branch fires precisely when at least one class name matches a
fixed utility pattern and the matching fraction exceeds 30 percent of the
class list, and in particular such a class list still resolves to tailwind
when it also contains a css-module-hash-shaped class. -/
theorem claim1_detect_style_strategy (el : StyleExtractor.DOMElementModel)
    (classes : List String) :
    (StyleExtractor.detectStyleStrategy el classes = .tailwind ↔
      (0 < StyleExtractor.tailwindCount classes ∧
        3 * classes.length < 10 * StyleExtractor.tailwindCount classes)) ∧
    (StyleExtractor.detectStyleStrategy el classes = .cssModule ↔
      (StyleExtractor.isTailwindElement classes = false ∧
        StyleExtractor.isCSSModulesElement classes = true)) ∧
    (StyleExtractor.detectStyleStrategy el classes = .styledComponents ↔
      (StyleExtractor.isTailwindElement classes = false ∧
        StyleExtractor.isCSSModulesElement classes = false ∧
        StyleExtractor.isStyledComponentsElement el classes = true)) ∧
    (StyleExtractor.detectStyleStrategy el classes = .inline ↔
      (StyleExtractor.isTailwindElement classes = false ∧
        StyleExtractor.isCSSModulesElement classes = false ∧
        StyleExtractor.isStyledComponentsElement el classes = false ∧
        0 < el.styleLength)) ∧
    (StyleExtractor.detectStyleStrategy el classes = .plainCss ↔
      (StyleExtractor.isTailwindElement classes = false ∧
        StyleExtractor.isCSSModulesElement classes = false ∧
        StyleExtractor.isStyledComponentsElement el classes = false ∧
        el.styleLength = 0)) ∧
    ((0 < StyleExtractor.tailwindCount classes ∧
        3 * classes.length < 10 * StyleExtractor.tailwindCount classes) →
      (∃ c ∈ classes, StyleExtractor.cssModuleMatch c = true) →
      StyleExtractor.detectStyleStrategy el classes = .tailwind) := by
  have htw : StyleExtractor.isTailwindElement classes = true ↔
      (0 < StyleExtractor.tailwindCount classes ∧
        3 * classes.length < 10 * StyleExtractor.tailwindCount classes) := by
    simp [StyleExtractor.isTailwindElement]
  unfold StyleExtractor.detectStyleStrategy
  split_ifs with h1 h2 h3 h4 <;> simp_all [htw, Nat.not_lt, Nat.le_zero] <;> omega

/-- Witness for C1: a class list that is over 30 percent tailwind-matching
(3 of 4) and also carries a css-module-hash class resolves to tailwind. -/
theorem claim1_detect_style_strategy_witness :
    StyleExtractor.detectStyleStrategy ⟨false, 0⟩
      ["flex", "px-4", "py-2", "Button_root__a1b2c"] = .tailwind :=
  (claim1_detect_style_strategy ⟨false, 0⟩
      ["flex", "px-4", "py-2", "Button_root__a1b2c"]).2.2.2.2.2
    (by decide) ⟨"Button_root__a1b2c", by decide, by decide⟩

/-- One record of the hook linked list (hooks-extractor `Hook`); the
`baseState`/`baseQueue` fields are never read by the extractor and are
omitted. The chaining `next` pointer is represented by the position in the
`List Hook` carried by the owning fiber. -/
structure Hook where
  memoizedState : JSValue
  queue : JSValue

/-- The slice of a `ReactFiberNode` that the embedded functions read:
`tag`, `type`, `elementType`, `memoizedProps`, `memoizedState` (as the
null-terminated hook chain of a function component) and the `child` and
`sibling` tree links. -/
inductive Fiber : Type where
  | mk (tag : Nat) (type : JSValue) (elementType : JSValue)
       (memoizedProps : JSValue) (memoizedState : List Hook)
       (child : Option Fiber) (sibling : Option Fiber) : Fiber

/-- Field accessor `fiber.tag`. -/
def Fiber.tag : Fiber → Nat
  | .mk t _ _ _ _ _ _ => t

/-- Field accessor `fiber.type`. -/
def Fiber.type : Fiber → JSValue
  | .mk _ ty _ _ _ _ _ => ty

/-- Field accessor `fiber.elementType`. -/
def Fiber.elementType : Fiber → JSValue
  | .mk _ _ et _ _ _ _ => et

/-- Field accessor `fiber.memoizedProps`. -/
def Fiber.memoizedProps : Fiber → JSValue
  | .mk _ _ _ p _ _ _ => p

/-- Field accessor `fiber.memoizedState`, viewed as the hook chain. -/
def Fiber.memoizedState : Fiber → List Hook
  | .mk _ _ _ _ s _ _ => s

/-- Field accessor `fiber.child`. -/
def Fiber.child : Fiber → Option Fiber
  | .mk _ _ _ _ _ c _ => c

/-- Field accessor `fiber.sibling`. -/
def Fiber.sibling : Fiber → Option Fiber
  | .mk _ _ _ _ _ _ s => s

/-- fiber-accessor `tagNames` table (identical copy in
component-identifier `getFiberTagName`). -/
def fiberTagNames : List (Nat × String) :=
  [(0, "FunctionComponent"), (1, "ClassComponent"),
   (2, "IndeterminateComponent"), (3, "HostRoot"), (4, "HostPortal"),
   (5, "HostComponent"), (6, "HostText"), (7, "Fragment"), (8, "Mode"),
   (9, "ContextConsumer"), (10, "ContextProvider"), (11, "ForwardRef"),
   (12, "Profiler"), (13, "SuspenseComponent"), (14, "MemoComponent"),
   (15, "SimpleMemoComponent"), (16, "LazyComponent"),
   (17, "IncompleteClassComponent"), (18, "DehydratedFragment"),
   (19, "SuspenseListComponent"), (22, "OffscreenComponent"),
   (23, "LegacyHiddenComponent"), (24, "CacheComponent"),
   (25, "TracingMarkerComponent")]

/-- fiber-accessor `getFiberTagName`. -/
def getFiberTagName (tag : Nat) : String :=
  match fiberTagNames.find? (fun kv => kv.1 == tag) with
  | some kv => kv.2
  | none => "Unknown(" ++ toString tag ++ ")"

/-- fiber-accessor `isComponentFiber`: `componentTags.includes(fiber.tag)`
with `componentTags = [0, 1, 2, 11, 12, 15]` (reproduced verbatim; the
inline comment of the source believes these stand for FunctionComponent,
ClassComponent, IndeterminateComponent, MemoComponent,
SimpleMemoComponent and ForwardRef). -/
def isComponentFiber (f : Fiber) : Bool :=
  [0, 1, 2, 11, 12, 15].contains f.tag

/-- fiber-accessor `isHostFiber`: tag 5. -/
def isHostFiber (f : Fiber) : Bool :=
  f.tag == 5

/-- component-identifier `isFunctionComponent`: tag 0. -/
def isFunctionComponent (f : Fiber) : Bool :=
  f.tag == 0

/-- component-identifier `isTextNode`: tag 6. -/
def isTextNode (f : Fiber) : Bool :=
  f.tag == 6

/-- component-identifier `isFragment`: tag 7. -/
def isFragment (f : Fiber) : Bool :=
  f.tag == 7

/-- component-identifier `identifyComponentType`: the fixed switch on the
fiber tag; unknown tags default to the function classification. -/
def identifyComponentType (f : Fiber) : String :=
  match f.tag with
  | 0 => "function"
  | 1 => "class"
  | 5 => "html"
  | 7 => "fragment"
  | 9 => "context.consumer"
  | 10 => "context.provider"
  | 11 => "forwardRef"
  | 14 => "memo"
  | 15 => "memo"
  | _ => "function"

mutual

/-- JS template-literal/String() stringification of a value. Only the
string case is exercised by the claims; the function and DOM cases are
environment-defined in JS and carry placeholder renderings here. -/
def jsTemplateStr : JSValue → String
  | .null => "null"
  | .undef => "undefined"
  | .bool b => if b then "true" else "false"
  | .num n => toString n
  | .str s => s
  | .func name => "function " ++ name ++ "() \x7b \x7d"
  | .domElem tagName => "[object HTML" ++ tagName ++ "Element]"
  | .arr xs => jsTemplateList xs
  | .obj _ => "[object Object]"
  | .thrower => ""

/-- Array stringification: elements joined with commas. -/
def jsTemplateList : List JSValue → String
  | [] => ""
  | [x] => jsTemplateStr x
  | x :: y :: rest => jsTemplateStr x ++ "," ++ jsTemplateList (y :: rest)

end

/-- fiber-accessor `getComponentName`: displayName, then function name,
then a string `type`, then the same checks on `elementType`, then the
fiber-tag name fallback. Callers always pass a non-null fiber, so the
initial null guard of the source is outside the model. -/
def getComponentName (f : Fiber) : String :=
  if truthy f.type && truthy (getField f.type "displayName") then
    jsTemplateStr (getField f.type "displayName")
  else if truthy f.type && truthy (getField f.type "name") then
    jsTemplateStr (getField f.type "name")
  else
    match f.type with
    | .str s => s
    | _ =>
      if truthy f.elementType then
        match f.elementType with
        | .str s => s
        | et =>
          if truthy (getField et "displayName") then
            jsTemplateStr (getField et "displayName")
          else if truthy (getField et "name") then
            jsTemplateStr (getField et "name")
          else getFiberTagName f.tag
      else getFiberTagName f.tag

/-- The while loop of metadata-extractor `countChildren`: length of a
child/sibling chain. -/
def chainCount : Option Fiber → Nat
  | none => 0
  | some (.mk _ _ _ _ _ _ sib) => 1 + chainCount sib

/-- metadata-extractor `countChildren`. -/
def countChildren (f : Fiber) : Nat :=
  chainCount f.child

namespace HooksExtractor

mutual

/-- hooks-extractor `sanitizeValue`. Null/undefined and primitives pass
through; functions, React elements (a truthy own `$$typeof`) and DOM
elements become placeholder strings; arrays map element-wise with no
exception handling; plain objects map key-wise with the per-key try/catch
that replaces a failing key by the `[Error reading value]` placeholder.
`Except.error` models a thrown exception escaping the call. -/
def sanitizeValue : JSValue → Except Unit JSValue
  | .null => .ok .null
  | .undef => .ok .undef
  | .str s => .ok (.str s)
  | .num n => .ok (.num n)
  | .bool b => .ok (.bool b)
  | .func name =>
    .ok (.str ("[Function: " ++ (if name = "" then "anonymous" else name) ++ "]"))
  | .arr xs => do
    let ys ← sanitizeList xs
    pure (.arr ys)
  | .domElem tagName => .ok (.str ("[" ++ tagName ++ "]"))
  | .obj fs =>
    (match fs.find? (fun kv => kv.1 == "$$typeof") with
     | some kv =>
       if isThrower kv.2 then .error ()
       else if truthy kv.2 then .ok (.str "[React Element]")
       else .ok (.obj (sanitizeFields fs))
     | none => .ok (.obj (sanitizeFields fs)))
  | .thrower => .error ()

/-- The `value.map(sanitizeValue)` of the array branch; an exception from
an element propagates. -/
def sanitizeList : List JSValue → Except Unit (List JSValue)
  | [] => .ok []
  | x :: xs => do
    let y ← sanitizeValue x
    let ys ← sanitizeList xs
    pure (y :: ys)

/-- The key loop of the object branch: each own key is sanitized inside a
try/catch, so a failing key becomes the error placeholder and the
remaining keys are still processed. -/
def sanitizeFields : List (String × JSValue) → List (String × JSValue)
  | [] => []
  | (k, v) :: rest =>
    (k, match sanitizeValue v with
        | .ok r => r
        | .error _ => .str "[Error reading value]") :: sanitizeFields rest

end

/-- hooks-extractor `detectHookType`: the fixed check sequence on the hook
record and its `memoizedState` payload. -/
def detectHookType (hook : Hook) (state : JSValue) : String :=
  if truthy hook.queue && truthy (getField hook.queue "dispatch") then
    "useState"
  else if truthy state && isObjectType state &&
      (hasKeyJS state "create" || hasKeyJS state "destroy" ||
        hasKeyJS state "deps") then
    "useEffect"
  else if truthy state && isObjectType state && hasKeyJS state "_source" then
    "useMemo"
  else if isFunctionValue state then
    "useCallback"
  else if truthy state && isObjectType state && hasKeyJS state "current" then
    "useRef"
  else if truthy state && isObjectType state && !truthy hook.queue then
    "useContext"
  else
    "unknown"

/-- hooks-extractor `sanitizeHookValue`: null/undefined pass through, then
kind-specific sanitization selected by the detected hook type string. -/
def sanitizeHookValue (value : JSValue) (hookType : String) :
    Except Unit JSValue :=
  match value with
  | .null => .ok .null
  | .undef => .ok .undef
  | v =>
    match hookType with
    | "useState" => sanitizeValue v
    | "useEffect" =>
      if truthy v && isObjectType v then
        (let deps := getField v "deps"
         let destroy := getField v "destroy"
         if isThrower deps || isThrower destroy then .error ()
         else do
           let depsV ← if truthy deps then sanitizeValue deps else pure JSValue.null
           pure (.obj [("hasDeps", .bool (truthy deps)), ("deps", depsV),
                       ("hasCleanup", .bool (truthy destroy))]))
      else .ok v
    | "useLayoutEffect" =>
      if truthy v && isObjectType v then
        (let deps := getField v "deps"
         let destroy := getField v "destroy"
         if isThrower deps || isThrower destroy then .error ()
         else do
           let depsV ← if truthy deps then sanitizeValue deps else pure JSValue.null
           pure (.obj [("hasDeps", .bool (truthy deps)), ("deps", depsV),
                       ("hasCleanup", .bool (truthy destroy))]))
      else .ok v
    | "useMemo" =>
      if isFunctionValue v then .ok (.str "[Function]")
      else sanitizeValue v
    | "useCallback" =>
      if isFunctionValue v then .ok (.str "[Function]")
      else sanitizeValue v
    | "useRef" =>
      if truthy v && isObjectType v && hasKeyJS v "current" then
        (let cur := getField v "current"
         if isThrower cur then .error ()
         else do
           let c ← sanitizeValue cur
           pure (.obj [("current", c)]))
      else sanitizeValue v
    | "useContext" => sanitizeValue v
    | _ => sanitizeValue v

/-- One hook descriptor: hooks-extractor `HookState`. -/
structure HookState where
  type : String
  value : JSValue

/-- hooks-extractor `analyzeHook` (the unused index argument is dropped;
the null guard is unreachable inside the walk). -/
def analyzeHook (hook : Hook) : Except Unit HookState := do
  let hookType := detectHookType hook hook.memoizedState
  let v ← sanitizeHookValue hook.memoizedState hookType
  pure ⟨hookType, v⟩

/-- The while loop of `extractHooks`: walk the hook chain in next-pointer
order, pushing each analyzed record. -/
def extractHooksLoop : List Hook → Except Unit (List HookState)
  | [] => .ok []
  | h :: rest => do
    let hs ← analyzeHook h
    let tl ← extractHooksLoop rest
    pure (hs :: tl)

/-- hooks-extractor `extractHooks`: empty for non-function components,
otherwise the chain walk from `fiber.memoizedState`. -/
def extractHooks (f : Fiber) : Except Unit (List HookState) :=
  if !isFunctionComponent f then .ok []
  else extractHooksLoop f.memoizedState

end HooksExtractor

namespace MetadataExtractor

mutual

/-- metadata-extractor `sanitizeValue`. Same shape as the hooks-extractor
copy except that it has no DOM-element branch (a DOM handle falls into the
plain-object branch, where a DOM element exposes no own enumerable keys)
and, crucially, no try/catch around the per-key recursion: an exception
from reading or sanitizing one key propagates out of the whole call. -/
def sanitizeValue : JSValue → Except Unit JSValue
  | .null => .ok .null
  | .undef => .ok .undef
  | .str s => .ok (.str s)
  | .num n => .ok (.num n)
  | .bool b => .ok (.bool b)
  | .func name =>
    .ok (.str ("[Function: " ++ (if name = "" then "anonymous" else name) ++ "]"))
  | .arr xs => do
    let ys ← sanitizeList xs
    pure (.arr ys)
  | .domElem _ => .ok (.obj [])
  | .obj fs =>
    (match fs.find? (fun kv => kv.1 == "$$typeof") with
     | some kv =>
       if isThrower kv.2 then .error ()
       else if truthy kv.2 then .ok (.str "[React Element]")
       else do
         let gs ← sanitizeFields fs
         pure (.obj gs)
     | none => do
       let gs ← sanitizeFields fs
       pure (.obj gs))
  | .thrower => .error ()

/-- Element-wise array sanitization, exceptions propagating. -/
def sanitizeList : List JSValue → Except Unit (List JSValue)
  | [] => .ok []
  | x :: xs => do
    let y ← sanitizeValue x
    let ys ← sanitizeList xs
    pure (y :: ys)

/-- The key loop of the object branch: no try/catch here, so the first
failing key aborts the loop and the exception escapes. -/
def sanitizeFields : List (String × JSValue) →
    Except Unit (List (String × JSValue))
  | [] => .ok []
  | (k, v) :: rest => do
    let r ← sanitizeValue v
    let rs ← sanitizeFields rest
    pure ((k, r) :: rs)

end

end MetadataExtractor

/-- Bind of a successful step in the exception model. -/
lemma exceptBindOk {α β : Type} (a : α) (f : α → Except Unit β) :
    (Except.ok a : Except Unit α) >>= f = f a := rfl

/-- Bind of a thrown exception in the exception model. -/
lemma exceptBindErr {α β : Type} (f : α → Except Unit β) :
    (Except.error () : Except Unit α) >>= f = Except.error () := rfl

/-- Functor map over a successful result in the exception model. -/
lemma exceptMapOk {α β : Type} (f : α → β) (a : α) :
    f <$> (Except.ok a : Except Unit α) = Except.ok (f a) := rfl

/-- Functor map over a thrown exception in the exception model. -/
lemma exceptMapErr {α β : Type} (f : α → β) :
    f <$> (Except.error () : Except Unit α) =
      (Except.error () : Except Unit β) := rfl

/-- Order preservation of the `extractHooks` while loop: a successful walk
returns one descriptor per hook record, and the descriptor at every index
is the analysis of the record at the same index. -/
lemma extractHooksLoop_index (hooks : List Hook) :
    ∀ ds, HooksExtractor.extractHooksLoop hooks = .ok ds →
      ds.length = hooks.length ∧
      ∀ (i : Nat) (h : Hook) (d : HooksExtractor.HookState),
        hooks[i]? = some h → ds[i]? = some d →
        HooksExtractor.analyzeHook h = .ok d := by
  induction hooks with
  | nil =>
    intro ds h
    simp [HooksExtractor.extractHooksLoop] at h
    subst h
    simp
  | cons hk t ih =>
    intro ds h
    cases ha : HooksExtractor.analyzeHook hk with
    | error e =>
      rw [HooksExtractor.extractHooksLoop, ha] at h
      cases e
      simp [exceptBindErr] at h
    | ok d0 =>
      cases ht : HooksExtractor.extractHooksLoop t with
      | error e =>
        rw [HooksExtractor.extractHooksLoop, ha, ht] at h
        cases e
        simp [exceptBindOk, exceptBindErr] at h
      | ok ds0 =>
        rw [HooksExtractor.extractHooksLoop, ha, ht] at h
        simp [exceptBindOk] at h
        subst h
        obtain ⟨hlen, hidx⟩ := ih ds0 ht
        refine ⟨by simp [hlen], ?_⟩
        intro i h d hh hd
        cases i with
        | zero =>
          simp at hh hd
          subst hh; subst hd
          exact ha
        | succ j =>
          simp at hh hd
          exact hidx j h d hh hd

/-- The hook chain of the end-to-end scenario of the claim: a record with
a dispatching queue, a record with create/deps state, and a record with a
current field. -/
def scenarioHooks : List Hook :=
  [⟨.num 0, .obj [("dispatch", .func "dispatch")]⟩,
   ⟨.obj [("deps", .arr [.num 1]), ("create", .func "create")], .null⟩,
   ⟨.obj [("current", .null)], .null⟩]

/-- A function-component fiber (tag 0) carrying the scenario hook chain. -/
def scenarioFiber : Fiber :=
  .mk 0 (.func "MyComponent") .null (.obj []) scenarioHooks none none

/-- C3: `extractHooks` walks the hook chain in next-pointer order and
returns one descriptor per record in exactly that order (the walk is the
monadic map of `analyzeHook`), is empty for non-function components, and
classifies each record by the fixed first-match check sequence
queue-with-dispatch, effect keys, memo marker, callable payload, current
key, bare object without queue, unknown; in particular the three-record
scenario of the claim yields the state, effect, ref kinds in that order. -/
theorem claim3_extract_hooks_order :
    (∀ f : Fiber, isFunctionComponent f = false →
      HooksExtractor.extractHooks f = .ok []) ∧
    (∀ f : Fiber, isFunctionComponent f = true →
      HooksExtractor.extractHooks f =
        HooksExtractor.extractHooksLoop f.memoizedState) ∧
    (∀ (hooks : List Hook) (ds : List HooksExtractor.HookState),
      HooksExtractor.extractHooksLoop hooks = .ok ds →
      ds.length = hooks.length ∧
      ∀ (i : Nat) (h : Hook) (d : HooksExtractor.HookState),
        hooks[i]? = some h → ds[i]? = some d →
        HooksExtractor.analyzeHook h = .ok d) ∧
    (∀ h : Hook,
      (HooksExtractor.detectHookType h h.memoizedState = "useState" ↔
        (truthy h.queue && truthy (getField h.queue "dispatch")) = true) ∧
      (HooksExtractor.detectHookType h h.memoizedState = "useEffect" ↔
        ((truthy h.queue && truthy (getField h.queue "dispatch")) = false ∧
         (truthy h.memoizedState && isObjectType h.memoizedState &&
           (hasKeyJS h.memoizedState "create" ||
            hasKeyJS h.memoizedState "destroy" ||
            hasKeyJS h.memoizedState "deps")) = true)) ∧
      (HooksExtractor.detectHookType h h.memoizedState = "useMemo" ↔
        ((truthy h.queue && truthy (getField h.queue "dispatch")) = false ∧
         (truthy h.memoizedState && isObjectType h.memoizedState &&
           (hasKeyJS h.memoizedState "create" ||
            hasKeyJS h.memoizedState "destroy" ||
            hasKeyJS h.memoizedState "deps")) = false ∧
         (truthy h.memoizedState && isObjectType h.memoizedState &&
           hasKeyJS h.memoizedState "_source") = true)) ∧
      (HooksExtractor.detectHookType h h.memoizedState = "useCallback" ↔
        ((truthy h.queue && truthy (getField h.queue "dispatch")) = false ∧
         (truthy h.memoizedState && isObjectType h.memoizedState &&
           (hasKeyJS h.memoizedState "create" ||
            hasKeyJS h.memoizedState "destroy" ||
            hasKeyJS h.memoizedState "deps")) = false ∧
         (truthy h.memoizedState && isObjectType h.memoizedState &&
           hasKeyJS h.memoizedState "_source") = false ∧
         isFunctionValue h.memoizedState = true)) ∧
      (HooksExtractor.detectHookType h h.memoizedState = "useRef" ↔
        ((truthy h.queue && truthy (getField h.queue "dispatch")) = false ∧
         (truthy h.memoizedState && isObjectType h.memoizedState &&
           (hasKeyJS h.memoizedState "create" ||
            hasKeyJS h.memoizedState "destroy" ||
            hasKeyJS h.memoizedState "deps")) = false ∧
         (truthy h.memoizedState && isObjectType h.memoizedState &&
           hasKeyJS h.memoizedState "_source") = false ∧
         isFunctionValue h.memoizedState = false ∧
         (truthy h.memoizedState && isObjectType h.memoizedState &&
           hasKeyJS h.memoizedState "current") = true)) ∧
      (HooksExtractor.detectHookType h h.memoizedState = "useContext" ↔
        ((truthy h.queue && truthy (getField h.queue "dispatch")) = false ∧
         (truthy h.memoizedState && isObjectType h.memoizedState &&
           (hasKeyJS h.memoizedState "create" ||
            hasKeyJS h.memoizedState "destroy" ||
            hasKeyJS h.memoizedState "deps")) = false ∧
         (truthy h.memoizedState && isObjectType h.memoizedState &&
           hasKeyJS h.memoizedState "_source") = false ∧
         isFunctionValue h.memoizedState = false ∧
         (truthy h.memoizedState && isObjectType h.memoizedState &&
           hasKeyJS h.memoizedState "current") = false ∧
         (truthy h.memoizedState && isObjectType h.memoizedState &&
           !truthy h.queue) = true))) ∧
    HooksExtractor.extractHooks scenarioFiber =
      .ok [⟨"useState", .num 0⟩,
           ⟨"useEffect", .obj [("hasDeps", .bool true),
                               ("deps", .arr [.num 1]),
                               ("hasCleanup", .bool false)]⟩,
           ⟨"useRef", .obj [("current", .null)]⟩] := by
  refine ⟨?_, ?_, ?_, ?_, ?_⟩
  · intro f hf
    simp [HooksExtractor.extractHooks, hf]
  · intro f hf
    simp [HooksExtractor.extractHooks, hf]
  · exact fun hooks ds h => extractHooksLoop_index hooks ds h
  · intro h
    unfold HooksExtractor.detectHookType
    split_ifs <;> simp_all <;> aesop
  · simp [HooksExtractor.extractHooks, scenarioFiber, scenarioHooks,
          isFunctionComponent, Fiber.tag, Fiber.memoizedState,
          HooksExtractor.extractHooksLoop, HooksExtractor.analyzeHook,
          HooksExtractor.detectHookType, HooksExtractor.sanitizeHookValue,
          HooksExtractor.sanitizeValue, HooksExtractor.sanitizeList,
          truthy, getField, hasKeyJS, isObjectType, isFunctionValue,
          isThrower, exceptBindOk, exceptBindErr]

/-- Witness for C3: a host fiber (tag 5) is not a function component, so
hook extraction yields the empty descriptor list. -/
theorem claim3_extract_hooks_order_witness :
    HooksExtractor.extractHooks
      (Fiber.mk 5 (.str "div") .null (.obj []) [] none none) = .ok [] :=
  claim3_extract_hooks_order.1
    (Fiber.mk 5 (.str "div") .null (.obj []) [] none none) (by rfl)

namespace HooksExtractor

/-- The per-key outcome of the object loop of the hooks-extractor
sanitizer: the sanitized value, or the error placeholder installed by the
catch when sanitization threw. -/
def sanOut (v : JSValue) : JSValue :=
  match sanitizeValue v with
  | .ok r => r
  | .error _ => .str "[Error reading value]"

/-- The object loop of the hooks-extractor sanitizer is the key-preserving
map of `sanOut`. -/
lemma sanitizeFields_eq_map (fs : List (String × JSValue)) :
    sanitizeFields fs = fs.map (fun kv => (kv.1, sanOut kv.2)) := by
  induction fs with
  | nil => rfl
  | cons kv rest ih =>
    cases kv
    simp [sanitizeFields, sanOut, ih]

end HooksExtractor

/-- The key loop of the metadata-extractor sanitizer throws as soon as any
key of the object fails to sanitize. -/
lemma metaSanitizeFields_error : ∀ fs : List (String × JSValue),
    (∃ kv ∈ fs, MetadataExtractor.sanitizeValue kv.2 = .error ()) →
    MetadataExtractor.sanitizeFields fs = .error () := by
  intro fs
  induction fs with
  | nil => intro hex; simp at hex
  | cons kv rest ih =>
    intro hex
    obtain ⟨kv', hmem, hkv⟩ := hex
    cases kv with
    | mk k v =>
      rcases List.mem_cons.mp hmem with heq | hmemr
      · subst heq
        simp only at hkv
        simp [MetadataExtractor.sanitizeFields, hkv, exceptBindErr]
      · have hrest := ih ⟨kv', hmemr, hkv⟩
        cases hsv : MetadataExtractor.sanitizeValue v with
        | error e =>
          cases e
          simp [MetadataExtractor.sanitizeFields, hsv, exceptBindErr]
        | ok r =>
          simp [MetadataExtractor.sanitizeFields, hsv, hrest,
                exceptBindOk, exceptBindErr, exceptMapOk, exceptMapErr]

/-- C5, amended: key-wise sanitization with per-key failure containment
holds for the Hook Inspector sanitizer: on a plain object (no own
`$$typeof` key) every key is mapped, a failing key is replaced by the
error placeholder and all sibling keys are still sanitized. The Metadata
Extractor copy of the sanitizer has no per-key catch: as soon as any key
of a plain object fails to sanitize, the whole call throws. -/
theorem claim5_perkey_catch :
    (∀ fs : List (String × JSValue),
      List.find? (fun kv => kv.1 == "$$typeof") fs = none →
      HooksExtractor.sanitizeValue (.obj fs) =
        .ok (.obj (fs.map (fun kv => (kv.1, HooksExtractor.sanOut kv.2))))) ∧
    (∀ fs : List (String × JSValue),
      List.find? (fun kv => kv.1 == "$$typeof") fs = none →
      (∃ kv ∈ fs, MetadataExtractor.sanitizeValue kv.2 = .error ()) →
      MetadataExtractor.sanitizeValue (.obj fs) = .error ()) := by
  constructor
  · intro fs hfind
    simp [HooksExtractor.sanitizeValue, hfind,
          HooksExtractor.sanitizeFields_eq_map]
  · intro fs hfind hex
    have herr : MetadataExtractor.sanitizeFields fs = .error () :=
      metaSanitizeFields_error fs hex
    simp [MetadataExtractor.sanitizeValue, hfind, herr, exceptBindErr]

/-- Counterexample for C5 as stated: the Metadata Extractor sanitizer does
not localize a per-key failure. On an object whose second key has a
throwing getter, it aborts with the exception (no placeholder, sibling key
lost), while the Hook Inspector sanitizer on the same object installs the
placeholder for that key only and keeps both siblings. -/
theorem claim5_perkey_catch_counterexample :
    MetadataExtractor.sanitizeValue
      (.obj [("a", .str "x"), ("b", .thrower), ("c", .str "y")]) =
      .error () ∧
    HooksExtractor.sanitizeValue
      (.obj [("a", .str "x"), ("b", .thrower), ("c", .str "y")]) =
      .ok (.obj [("a", .str "x"), ("b", .str "[Error reading value]"),
                 ("c", .str "y")]) := by
  constructor
  · simp [MetadataExtractor.sanitizeValue, MetadataExtractor.sanitizeFields,
          exceptBindOk, exceptBindErr]
  · simp [HooksExtractor.sanitizeValue, HooksExtractor.sanitizeFields,
          exceptBindOk, exceptBindErr]

/-- Witness for C5 (amended): the hooks-extractor sanitizer on a concrete
plain object with one good key and one throwing key sanitizes the good
key and replaces the bad one by the placeholder. -/
theorem claim5_perkey_catch_witness :
    HooksExtractor.sanitizeValue
      (.obj [("a", .func "f"), ("b", .thrower)]) =
    .ok (.obj [("a", .str "[Function: f]"),
               ("b", .str "[Error reading value]")]) := by
  have h := claim5_perkey_catch.1 [("a", .func "f"), ("b", .thrower)] (by rfl)
  rw [h]
  simp [HooksExtractor.sanOut, HooksExtractor.sanitizeValue]

namespace HooksExtractor

/-- Falsy values other than the thrower marker are sanitization
fixpoints. -/
lemma san_falsy (v : JSValue) (hf : truthy v = false) (ht : v ≠ .thrower) :
    sanitizeValue v = .ok v := by
  cases v <;> simp_all [truthy, sanitizeValue]

/-- Key lookup commutes with the key-preserving `sanOut` map. -/
lemma find?_map_sanOut (fs : List (String × JSValue)) (k : String) :
    (fs.map (fun kv => (kv.1, sanOut kv.2))).find? (fun kv => kv.1 == k) =
      (fs.find? (fun kv => kv.1 == k)).map
        (fun kv => (kv.1, sanOut kv.2)) := by
  induction fs with
  | nil => rfl
  | cons kv rest ih =>
    cases kv with
    | mk k1 v1 =>
      cases hk : (k1 == k) <;>
        simp [List.find?_cons, hk, ih]

/-- Idempotence transfer for the array loop: if every element of `xs`
satisfies the fixpoint property, a successful sanitization of `xs` yields
a list that sanitizes to itself. -/
lemma sanL_fix_of : ∀ xs : List JSValue,
    (∀ x ∈ xs, ∀ y, sanitizeValue x = .ok y → sanitizeValue y = .ok y) →
    ∀ ys, sanitizeList xs = .ok ys → sanitizeList ys = .ok ys := by
  intro xs
  induction xs with
  | nil =>
    intro _ ys h
    simp [sanitizeList] at h
    subst h
    simp [sanitizeList]
  | cons x xt ih =>
    intro IH ys h
    cases hx : sanitizeValue x with
    | error e =>
      cases e
      simp [sanitizeList, hx, exceptBindErr] at h
    | ok y0 =>
      cases hxt : sanitizeList xt with
      | error e =>
        cases e
        simp [sanitizeList, hx, hxt, exceptBindOk, exceptBindErr,
              exceptMapOk, exceptMapErr] at h
      | ok ys0 =>
        simp [sanitizeList, hx, hxt, exceptBindOk, exceptMapOk] at h
        subst h
        have hy0 : sanitizeValue y0 = .ok y0 := IH x (by simp) y0 hx
        have hys0 : sanitizeList ys0 = .ok ys0 :=
          ih (fun z hz => IH z (by simp [hz])) ys0 hxt
        simp [sanitizeList, hy0, hys0, exceptBindOk, exceptMapOk]

/-- The per-key outcome is itself a sanitization fixpoint, given the
fixpoint property of the underlying value. -/
lemma sanOut_fix_of (v : JSValue)
    (IH : ∀ y, sanitizeValue v = .ok y → sanitizeValue y = .ok y) :
    sanitizeValue (sanOut v) = .ok (sanOut v) := by
  cases hv : sanitizeValue v with
  | ok r =>
    have := IH r hv
    simp [sanOut, hv, this]
  | error e =>
    simp [sanOut, hv, sanitizeValue]

/-- The object loop is idempotent, given the fixpoint property of the
field values. -/
lemma sanF_fix_of (fs : List (String × JSValue))
    (IH : ∀ kv ∈ fs, ∀ y, sanitizeValue kv.2 = .ok y →
      sanitizeValue y = .ok y) :
    sanitizeFields (sanitizeFields fs) = sanitizeFields fs := by
  rw [sanitizeFields_eq_map, sanitizeFields_eq_map, List.map_map]
  apply List.map_congr_left
  intro kv hkv
  have hfix := sanOut_fix_of kv.2 (IH kv hkv)
  have h2 : sanOut (sanOut kv.2) = sanOut kv.2 := by
    rw [show sanOut (sanOut kv.2) =
          (match sanitizeValue (sanOut kv.2) with
           | .ok r => r
           | .error _ => .str "[Error reading value]") from rfl, hfix]
  simp [Function.comp, h2]

/-- Sanitization preserves falsiness and never produces the thrower
marker, for values that are already falsy and readable. -/
lemma sanOut_falsy (v : JSValue) (hf : truthy v = false)
    (ht : v ≠ .thrower) : sanOut v = v := by
  simp [sanOut, san_falsy v hf ht]

end HooksExtractor

/-- The hooks-extractor sanitizer maps every successfully sanitized value
to a fixpoint of itself: sanitizing its own output returns the output
unchanged. -/
lemma hooksSanitize_fix : ∀ (x y : JSValue),
    HooksExtractor.sanitizeValue x = .ok y →
    HooksExtractor.sanitizeValue y = .ok y := by
  have main : ∀ n : Nat, ∀ x : JSValue, sizeOf x ≤ n → ∀ y : JSValue,
      HooksExtractor.sanitizeValue x = .ok y →
      HooksExtractor.sanitizeValue y = .ok y := by
    intro n
    induction n with
    | zero =>
      intro x hx
      exact absurd hx (by cases x <;> simp_arith)
    | succ n ihn =>
      intro x hx y h
      cases x with
      | null =>
        simp [HooksExtractor.sanitizeValue] at h
        subst h
        simp [HooksExtractor.sanitizeValue]
      | undef =>
        simp [HooksExtractor.sanitizeValue] at h
        subst h
        simp [HooksExtractor.sanitizeValue]
      | bool b =>
        simp [HooksExtractor.sanitizeValue] at h
        subst h
        simp [HooksExtractor.sanitizeValue]
      | num m =>
        simp [HooksExtractor.sanitizeValue] at h
        subst h
        simp [HooksExtractor.sanitizeValue]
      | str s =>
        simp [HooksExtractor.sanitizeValue] at h
        subst h
        simp [HooksExtractor.sanitizeValue]
      | func name =>
        simp [HooksExtractor.sanitizeValue] at h
        subst h
        simp [HooksExtractor.sanitizeValue]
      | domElem t =>
        simp [HooksExtractor.sanitizeValue] at h
        subst h
        simp [HooksExtractor.sanitizeValue]
      | thrower =>
        simp [HooksExtractor.sanitizeValue] at h
      | arr xs =>
        have hmem : ∀ x' ∈ xs, ∀ y', HooksExtractor.sanitizeValue x' = .ok y' →
            HooksExtractor.sanitizeValue y' = .ok y' := by
          intro x' hx' y' h'
          have hlt : sizeOf x' < sizeOf (JSValue.arr xs) := by
            have := List.sizeOf_lt_of_mem hx'
            simp_arith
            omega
          exact ihn x' (by omega) y' h'
        cases hL : HooksExtractor.sanitizeList xs with
        | error e =>
          cases e
          simp [HooksExtractor.sanitizeValue, hL, exceptBindErr] at h
        | ok ys =>
          simp [HooksExtractor.sanitizeValue, hL, exceptBindOk,
                exceptMapOk] at h
          subst h
          have := HooksExtractor.sanL_fix_of xs hmem ys hL
          simp [HooksExtractor.sanitizeValue, this, exceptBindOk,
                exceptMapOk]
      | obj fs =>
        have hmem : ∀ kv ∈ fs, ∀ y', HooksExtractor.sanitizeValue kv.2 = .ok y' →
            HooksExtractor.sanitizeValue y' = .ok y' := by
          intro kv hkv y' h'
          have hlt : sizeOf kv.2 < sizeOf (JSValue.obj fs) := by
            have h1 := List.sizeOf_lt_of_mem hkv
            have h2 : sizeOf kv.2 < sizeOf kv := by
              cases kv
              simp_arith
            simp_arith
            omega
          exact ihn kv.2 (by omega) y' h'
        cases hfind : fs.find? (fun kv => kv.1 == "$$typeof") with
        | none =>
          simp [HooksExtractor.sanitizeValue, hfind] at h
          subst h
          have hfind2 : (HooksExtractor.sanitizeFields fs).find?
              (fun kv => kv.1 == "$$typeof") = none := by
            rw [HooksExtractor.sanitizeFields_eq_map,
                HooksExtractor.find?_map_sanOut, hfind]
            rfl
          have hFix := HooksExtractor.sanF_fix_of fs hmem
          rw [HooksExtractor.sanitizeValue]
          rw [HooksExtractor.sanitizeFields_eq_map]
          rw [HooksExtractor.sanitizeFields_eq_map] at hfind2
          rw [hfind2]
          simp [hFix, ← HooksExtractor.sanitizeFields_eq_map]
        | some kv =>
          cases hth : isThrower kv.2 with
          | true =>
            simp [HooksExtractor.sanitizeValue, hfind, hth] at h
          | false =>
            cases htr : truthy kv.2 with
            | true =>
              simp [HooksExtractor.sanitizeValue, hfind, hth, htr] at h
              subst h
              simp [HooksExtractor.sanitizeValue]
            | false =>
              simp [HooksExtractor.sanitizeValue, hfind, hth, htr] at h
              subst h
              have hnt : kv.2 ≠ .thrower := by
                intro hcon
                rw [hcon] at hth
                simp [isThrower] at hth
              have hfind2 : (HooksExtractor.sanitizeFields fs).find?
                  (fun kv => kv.1 == "$$typeof") =
                  some (kv.1, HooksExtractor.sanOut kv.2) := by
                rw [HooksExtractor.sanitizeFields_eq_map,
                    HooksExtractor.find?_map_sanOut, hfind]
                rfl
              have hout : HooksExtractor.sanOut kv.2 = kv.2 :=
                HooksExtractor.sanOut_falsy kv.2 htr hnt
              have hFix := HooksExtractor.sanF_fix_of fs hmem
              rw [HooksExtractor.sanitizeValue]
              rw [HooksExtractor.sanitizeFields_eq_map]
              rw [HooksExtractor.sanitizeFields_eq_map] at hfind2
              rw [hfind2]
              simp only [hout]
              simp [hth, htr, hFix, ← HooksExtractor.sanitizeFields_eq_map]
  exact fun x y h => main (sizeOf x) x (le_refl _) y h

/-- C7: the hooks-extractor value sanitizer is idempotent on its own
output: whenever sanitization of x succeeds (its result is JSON-safe
rather than an escaped exception), sanitizing the result again returns it
unchanged. -/
theorem claim7_sanitize_idempotent (x y : JSValue)
    (h : HooksExtractor.sanitizeValue x = .ok y) :
    HooksExtractor.sanitizeValue y = .ok y :=
  hooksSanitize_fix x y h

/-- Witness for C7: sanitizing an object holding a function turns the
function into its placeholder string, and re-sanitizing that output
returns it unchanged. -/
theorem claim7_sanitize_idempotent_witness :
    HooksExtractor.sanitizeValue
      (.obj [("a", .str "[Function: f]"), ("n", .num 3)]) =
    .ok (.obj [("a", .str "[Function: f]"), ("n", .num 3)]) :=
  claim7_sanitize_idempotent (.obj [("a", .func "f"), ("n", .num 3)])
    (.obj [("a", .str "[Function: f]"), ("n", .num 3)])
    (by simp [HooksExtractor.sanitizeValue, HooksExtractor.sanitizeFields])

namespace TypeGenerator

/-- type-generator `isStyleObject`: the fixed style-property-name probe
list. -/
def styleProps : List String :=
  ["color", "backgroundColor", "fontSize", "margin", "padding",
   "display", "position", "width", "height"]

/-- type-generator `isStyleObject`: some own key is one of the fixed style
property names. -/
def isStyleObject (fields : List (String × JSValue)) : Bool :=
  fields.any (fun kv => styleProps.contains kv.1)

mutual

/-- type-generator `inferType`: infer a TypeScript type name from a
runtime value; null, undefined and the three primitives map to their type
names, functions to a generic callable, arrays to the element type of the
first element when every element infers to that same type (else a generic
array), React elements, style-shaped objects and plain objects to their
generic types. -/
def inferType : JSValue → String
  | .null => "null"
  | .undef => "undefined"
  | .str _ => "string"
  | .num _ => "number"
  | .bool _ => "boolean"
  | .func _ => "() => void"
  | .arr [] => "any[]"
  | .arr (x :: xs) =>
    let firstType := inferType x
    if inferTypeAllEq (x :: xs) firstType then firstType ++ "[]"
    else "any[]"
  | .obj fs =>
    if truthy (getField (.obj fs) "$$typeof") then "React.ReactElement"
    else if isStyleObject fs then "React.CSSProperties"
    else "Record<string, any>"
  | .domElem _ => "Record<string, any>"
  | .thrower => "Record<string, any>"

/-- The `value.every((item) => inferType(item) === firstType)` test. -/
def inferTypeAllEq : List JSValue → String → Bool
  | [], _ => true
  | y :: ys, firstType =>
    (inferType y == firstType) && inferTypeAllEq ys firstType

end

end TypeGenerator

/-- The membership form of the homogeneous-array test. -/
lemma inferTypeAllEq_iff (l : List JSValue) (t : String) :
    TypeGenerator.inferTypeAllEq l t = true ↔
      ∀ u ∈ l, TypeGenerator.inferType u = t := by
  induction l with
  | nil => simp [TypeGenerator.inferTypeAllEq]
  | cons y ys ih =>
    simp [TypeGenerator.inferTypeAllEq, ih]

/-- C8: `inferType` round-trips the primitives (string, number, boolean map
to their type names), and a non-empty array all of whose elements infer to
the same type as the first element infers to that element type with the
array suffix appended. -/
theorem claim8_infer_type_roundtrip :
    (∀ s, TypeGenerator.inferType (.str s) = "string") ∧
    (∀ n, TypeGenerator.inferType (.num n) = "number") ∧
    (∀ b, TypeGenerator.inferType (.bool b) = "boolean") ∧
    (∀ (x : JSValue) (xs : List JSValue),
      (∀ u ∈ x :: xs, TypeGenerator.inferType u = TypeGenerator.inferType x) →
      TypeGenerator.inferType (.arr (x :: xs)) =
        TypeGenerator.inferType x ++ "[]") := by
  refine ⟨fun s => rfl, fun n => rfl, fun b => rfl, ?_⟩
  intro x xs hall
  have hb : TypeGenerator.inferTypeAllEq (x :: xs)
      (TypeGenerator.inferType x) = true :=
    (inferTypeAllEq_iff (x :: xs) (TypeGenerator.inferType x)).mpr hall
  simp [TypeGenerator.inferType, hb]

/-- Witness for C8: a homogeneous three-element integer array infers to
the number array type. -/
theorem claim8_infer_type_roundtrip_witness :
    TypeGenerator.inferType (.arr [.num 1, .num 2, .num 3]) = "number[]" := by
  have h := claim8_infer_type_roundtrip.2.2.2 (.num 1) [.num 2, .num 3]
    (by intro u hu; fin_cases hu <;> rfl)
  simpa using h

/-- A bare fiber carrying only a tag, for exercising the tag-driven
classifier predicates. -/
def bareFiber (tag : Nat) : Fiber :=
  .mk tag .null .null .null [] none none

/-- C6 evaluation: the `isComponentFiber` tag list is inconsistent with the
classification table. Tag 14 is classified memo by the table and named
MemoComponent by the repository's own tag-name table, yet
`isComponentFiber` rejects it; tag 12 is Profiler (not one of function,
class, forward-ref, memo, nor the indeterminate tag 2), yet
`isComponentFiber` accepts it. Tags 0, 1, 2, 11 and 15 behave as the
claim requires, isolating the divergence to 12 and 14. -/
theorem claim6_isComponentFiber_inconsistent :
    identifyComponentType (bareFiber 14) = "memo" ∧
    getFiberTagName 14 = "MemoComponent" ∧
    isComponentFiber (bareFiber 14) = false ∧
    getFiberTagName 12 = "Profiler" ∧
    isComponentFiber (bareFiber 12) = true ∧
    isComponentFiber (bareFiber 0) = true ∧
    isComponentFiber (bareFiber 1) = true ∧
    isComponentFiber (bareFiber 2) = true ∧
    isComponentFiber (bareFiber 11) = true ∧
    isComponentFiber (bareFiber 15) = true ∧
    identifyComponentType (bareFiber 11) = "forwardRef" ∧
    identifyComponentType (bareFiber 15) = "memo" := by
  refine ⟨rfl, rfl, rfl, rfl, rfl, rfl, rfl, rfl, rfl, rfl, rfl, rfl⟩

/-- The pointer-level model of one hook record for the linked-list walk of
`extractHooks`: the payload fields plus the raw `next` pointer (an index
into the heap, or null). -/
structure HookNode where
  memoizedState : JSValue
  queue : JSValue
  next : Option Nat

/-- A heap of hook records addressed by index: the pointer structure the
source's while loop walks without any cap. -/
def HookHeap : Type := Nat → HookNode

/-- One step of `currentHook = currentHook.next`. -/
def hookStep (heap : HookHeap) (p : Option Nat) : Option Nat :=
  p.bind (fun i => (heap i).next)

/-- The cursor after n iterations of the while loop. -/
def hookChainIter (heap : HookHeap) : Nat → Option Nat → Option Nat
  | 0, p => p
  | n + 1, p => hookChainIter heap n (hookStep heap p)

/-- A fueled rendering of the `extractHooks` while loop over the pointer
heap. The fuel argument is NOT in the source: the source loop trusts the
`next` pointer alone, and this function returns `none` exactly when the
loop has not reached the null pointer within the given number of
iterations - so `none` for every fuel means the source loop never
terminates on that heap. -/
def extractHooksFueled (heap : HookHeap) :
    Option Nat → Nat → Option (List HookNode)
  | none, _ => some []
  | some _, 0 => none
  | some i, n + 1 =>
    (extractHooksFueled heap (heap i).next n).map (fun l => heap i :: l)

/-- A malformed (cyclic) hook list: a single record whose next pointer is
itself. -/
def cyclicHookHeap : HookHeap :=
  fun _ => ⟨.null, .null, some 0⟩

/-- C9 evaluation: the hook-list walk of `extractHooks` has no defensive
hook-count cap and trusts the `next` pointer alone, so on a cyclic hook
list the cursor never becomes null and the walk completes under no finite
iteration budget: the source loop does not terminate on this malformed
input. -/
theorem claim9_hook_walk_unbounded :
    (∀ n, hookChainIter cyclicHookHeap n (some 0) = some 0) ∧
    (∀ fuel, extractHooksFueled cyclicHookHeap (some 0) fuel = none) := by
  constructor
  · intro n
    induction n with
    | zero => rfl
    | succ m ih =>
      simpa [hookChainIter, hookStep, cyclicHookHeap] using ih
  · intro fuel
    induction fuel with
    | zero => rfl
    | succ m ih =>
      simp [extractHooksFueled, cyclicHookHeap, ih]

namespace JSXGenerator

/-- The `extractDepth` option: stop at custom components or go deeper. -/
inductive ExtractDepth : Type where
  | shallow : ExtractDepth
  | deep : ExtractDepth
deriving DecidableEq, Repr

instance : BEq ExtractDepth := ⟨fun a b => decide (a = b)⟩

/-- jsx-generator `JSXGeneratorOptions` after the merge with
`DEFAULT_OPTIONS` (every call site of the recursion passes the full
record, so the embedding works with the merged `Required` form). -/
structure JSXOptions where
  maxDepth : Nat
  currentDepth : Nat
  includeChildren : Bool
  extractDepth : ExtractDepth
  prettify : Bool
  indentLevel : Nat
  includeDataAttributes : Bool
  includeAriaAttributes : Bool
  includeEventHandlers : Bool
  useChildPlaceholders : Bool

/-- jsx-generator `DEFAULT_OPTIONS`. -/
def DEFAULT_OPTIONS : JSXOptions :=
  ⟨5, 0, true, .deep, true, 0, false, true, true, false⟩

/-- jsx-generator `indent`: two spaces per level. -/
def indent : Nat → String
  | 0 => ""
  | n + 1 => "  " ++ indent n

/-- One character of `escapeJSXText`. The source applies five global
replaces in sequence (amp, lt, gt, open brace, close brace); since no
replacement output contains a character replaced by a later stage, the
sequence equals this single character-wise expansion. -/
def escTextChar (c : Char) : List Char :=
  if c == '&' then "&amp;".data
  else if c == '<' then "&lt;".data
  else if c == '>' then "&gt;".data
  else if c == Char.ofNat 123 then "&#123;".data
  else if c == Char.ofNat 125 then "&#125;".data
  else [c]

/-- jsx-generator `escapeJSXText`. -/
def escapeJSXText (text : String) : String :=
  String.mk ((text.data.map escTextChar).flatten)

/-- One character of the attribute-string escape (quote to entity, newline
to a backslash-n pair); same sequencing argument as for the text escape. -/
def escAttrChar (c : Char) : List Char :=
  if c == '"' then "&quot;".data
  else if c == '\n' then ['\\', 'n']
  else [c]

/-- The `value.replace` chain of the string case of
`propToJSXAttribute`. -/
def escapeAttrString (s : String) : String :=
  String.mk ((s.data.map escAttrChar).flatten)

/-- jsx-generator `camelToKebab` (the regex class [A-Z] is ASCII). -/
def camelToKebab (str : String) : String :=
  String.mk ((str.data.map (fun c =>
    if ('A' ≤ c) && (c ≤ 'Z') then ['-', charLowerAscii c] else [c])).flatten)

/-- jsx-generator `needsPixelUnit`: the no-unit property list. -/
def noUnitProps : List String :=
  ["opacity", "z-index", "font-weight", "line-height", "flex",
   "flex-grow", "flex-shrink", "order"]

/-- jsx-generator `needsPixelUnit`. -/
def needsPixelUnit (property : String) : Bool :=
  !noUnitProps.contains property

/-- jsx-generator `isEventHandler`: the anchored regex on-capital test. -/
def isEventHandler (key : String) : Bool :=
  match key.data with
  | 'o' :: 'n' :: c :: _ => ('A' ≤ c) && (c ≤ 'Z')
  | _ => false

/-- jsx-generator `isSelfClosingTag`: the fixed self-closing tag set. -/
def selfClosingTags : List String :=
  ["area", "base", "br", "col", "embed", "hr", "img", "input", "link",
   "meta", "param", "source", "track", "wbr"]

/-- jsx-generator `isSelfClosingTag`. -/
def isSelfClosingTag (tag : String) : Bool :=
  selfClosingTags.contains (lowerStr tag)

/-- The `value === null or undefined` filter of `objectToStyleString`. -/
def isNullish : JSValue → Bool
  | .null => true
  | .undef => true
  | _ => false

/-- jsx-generator `objectToStyleString`: kebab keys, px-unit inference for
unit-bearing numeric values, single-quoted values, comma-joined and
space-padded. -/
def objectToStyleString (style : List (String × JSValue)) : String :=
  let entries := (style.filter (fun kv => !isNullish kv.2)).map (fun kv =>
    let kebabKey := camelToKebab kv.1
    let strValue :=
      match kv.2 with
      | .num n =>
        if needsPixelUnit kebabKey then toString n ++ "px" else toString n
      | v => jsTemplateStr v
    kebabKey ++ ": \x27" ++ strValue ++ "\x27")
  if entries.isEmpty then "" else " " ++ String.intercalate ", " entries ++ " "

/-- jsx-generator `propToJSXAttribute`. A DOM handle is typeof object in
JS and enumerates no own entries, so it follows the object branch with an
empty entry list; the thrower marker cannot occur among already-read
props and is mapped to no attribute. -/
def propToJSXAttribute (key : String) (value : JSValue) : Option String :=
  match value with
  | .null => none
  | .undef => none
  | .bool b => if b then some key else none
  | .str s =>
    if s = "" then some (key ++ "=\"\"")
    else some (key ++ "=\"" ++ escapeAttrString s ++ "\"")
  | .num n => some (key ++ "=\x7b" ++ toString n ++ "\x7d")
  | .arr _ => some (key ++ "=\x7b[/* array */]\x7d")
  | .obj fs =>
    if key = "style" then
      some (key ++ "=\x7b\x7b" ++ objectToStyleString fs ++ "\x7d\x7d")
    else if key = "className" then none
    else some (key ++ "=\x7b\x7b/* object */\x7d\x7d")
  | .domElem _ =>
    if key = "style" then
      some (key ++ "=\x7b\x7b" ++ objectToStyleString [] ++ "\x7d\x7d")
    else if key = "className" then none
    else some (key ++ "=\x7b\x7b/* object */\x7d\x7d")
  | .func _ => some (key ++ "=\x7bhandleEvent\x7d")
  | .thrower => none

/-- jsx-generator `propsToJSXAttributes`: the key filter chain (special
props, double-underscore internals, data- and aria- flags, event-handler
placeholders) followed by per-prop conversion, space-joined. -/
def propsToJSXAttributes (props : List (String × JSValue))
    (opts : JSXOptions) : String :=
  let attributes := props.filterMap (fun kv =>
    let key := kv.1
    if key = "children" || key = "key" || key = "ref" then none
    else if strStartsWith key "__" then none
    else if strStartsWith key "data-" && !opts.includeDataAttributes then none
    else if strStartsWith key "aria-" && !opts.includeAriaAttributes then none
    else if strStartsWith key "on" && isEventHandler key then
      (if opts.includeEventHandlers then
        some (key ++ "=\x7bhandleEvent\x7d")
       else none)
    else propToJSXAttribute key kv.2)
  if attributes.isEmpty then "" else " " ++ String.intercalate " " attributes

/-- `Object.entries` of a props value: the own fields of an object, and
empty for every non-object (the generators only reach this after the
`fiber.memoizedProps or empty-object` fallback). -/
def fieldsOf : JSValue → List (String × JSValue)
  | .obj fs => fs
  | _ => []

/-- `children.includes` over one character. -/
def strContainsChar (s : String) (c : Char) : Bool :=
  s.data.contains c

/-- Size bound for the child link, for the termination measure of the
mutual recursion. -/
lemma sizeOf_child_lt (f : Fiber) : sizeOf f.child < sizeOf f := by
  cases f
  simp_arith [Fiber.child]

/-- Size bound for the sibling link, for the termination measure of the
mutual recursion. -/
lemma sizeOf_sibling_lt (f : Fiber) : sizeOf f.sibling < sizeOf f := by
  cases f
  simp_arith [Fiber.sibling]

mutual

/-- jsx-generator `generateJSX`: null guard, depth guard (placeholder
comment when prettifying, empty string otherwise), then dispatch on the
classified fiber kind. -/
def generateJSX : Option Fiber → JSXOptions → String
  | none, _ => ""
  | some f, opts =>
    if opts.maxDepth ≤ opts.currentDepth then
      (if opts.prettify then
        indent opts.indentLevel ++ "\x7b/* Max depth reached */\x7d"
       else "")
    else if isTextNode f then generateTextNode f opts
    else if isFragment f then generateFragment f opts
    else if isHostFiber f then generateHostElement f opts
    else generateComponent f opts
termination_by f? opts => (sizeOf f?, 0)
decreasing_by
  all_goals simp_wf
  all_goals (apply Prod.Lex.left; simp_arith)

/-- jsx-generator `generateTextNode`: the memoizedProps string, trimmed
and entity-escaped, indented when prettifying. -/
def generateTextNode (f : Fiber) (opts : JSXOptions) : String :=
  match f.memoizedProps with
  | .str s =>
    if s = "" then ""
    else
      let escapedText := escapeJSXText (trimStr s)
      if escapedText = "" then ""
      else if opts.prettify then indent opts.indentLevel ++ escapedText
      else escapedText
  | _ => ""

/-- jsx-generator `generateFragment`: shorthand wrapper around the
children, empty when the children text is empty. -/
def generateFragment (f : Fiber) (opts : JSXOptions) : String :=
  let children := generateChildren f opts
  if children = "" then ""
  else
    let ind := if opts.prettify then indent opts.indentLevel else ""
    let newline := if opts.prettify then "\n" else ""
    ind ++ "<>" ++ newline ++ children ++ newline ++ ind ++ "</>"
termination_by (sizeOf f, 2)
decreasing_by
  all_goals (simp_wf; apply Prod.Lex.right; omega)

/-- jsx-generator `generateHostElement`: tag from `fiber.type`, attributes
from props, then self-close, empty pair, or wrapped children with the
multi-line trigger (a newline in the children or length over 60). -/
def generateHostElement (f : Fiber) (opts : JSXOptions) : String :=
  match f.type with
  | .str tag =>
    if tag = "" then ""
    else
      let attributes :=
        propsToJSXAttributes (fieldsOf (jsOr f.memoizedProps (.obj []))) opts
      let children := generateChildren f opts
      let ind := if opts.prettify then indent opts.indentLevel else ""
      let newline := if opts.prettify then "\n" else ""
      if children = "" && isSelfClosingTag tag then
        ind ++ "<" ++ tag ++ attributes ++ " />"
      else if children = "" then
        ind ++ "<" ++ tag ++ attributes ++ "></" ++ tag ++ ">"
      else
        let needsNewlines :=
          strContainsChar children '\n' || decide (60 < children.length)
        if needsNewlines && opts.prettify then
          ind ++ "<" ++ tag ++ attributes ++ ">" ++ newline ++ children ++
            newline ++ ind ++ "</" ++ tag ++ ">"
        else
          ind ++ "<" ++ tag ++ attributes ++ ">" ++ children ++ "</" ++
            tag ++ ">"
  | _ => ""
termination_by (sizeOf f, 2)
decreasing_by
  all_goals (simp_wf; apply Prod.Lex.right; omega)

/-- jsx-generator `generateComponent` (the custom-component case of the
dispatch): resolved name as the tag; in shallow extraction below the root
a single self-closed placeholder tag; otherwise exactly the host-element
shape. -/
def generateComponent (f : Fiber) (opts : JSXOptions) : String :=
  let componentName := getComponentName f
  if componentName = "" then ""
  else if (opts.extractDepth == ExtractDepth.shallow) &&
      decide (0 < opts.currentDepth) then
    (if opts.prettify then indent opts.indentLevel else "") ++
      "<" ++ componentName ++
      " \x7b/* TODO: Extract this component separately */\x7d />"
  else
    let attributes :=
      propsToJSXAttributes (fieldsOf (jsOr f.memoizedProps (.obj []))) opts
    let children := generateChildren f opts
    let ind := if opts.prettify then indent opts.indentLevel else ""
    let newline := if opts.prettify then "\n" else ""
    if children = "" then
      ind ++ "<" ++ componentName ++ attributes ++ " />"
    else
      let needsNewlines :=
        strContainsChar children '\n' || decide (60 < children.length)
      if needsNewlines && opts.prettify then
        ind ++ "<" ++ componentName ++ attributes ++ ">" ++ newline ++
          children ++ newline ++ ind ++ "</" ++ componentName ++ ">"
      else
        ind ++ "<" ++ componentName ++ attributes ++ ">" ++ children ++
          "</" ++ componentName ++ ">"
termination_by (sizeOf f, 2)
decreasing_by
  all_goals (simp_wf; apply Prod.Lex.right; omega)

/-- jsx-generator `generateChildren`: nothing when children are excluded,
one placeholder comment in placeholder mode, otherwise the child/sibling
walk with depth and indent advanced once for all children, non-empty
results joined by newline when prettifying. -/
def generateChildren (f : Fiber) (opts : JSXOptions) : String :=
  if !opts.includeChildren then ""
  else if opts.useChildPlaceholders then
    (if opts.prettify then
      indent (opts.indentLevel + 1) ++ "\x7b/* Children */\x7d"
     else "")
  else
    let childOpts := { opts with currentDepth := opts.currentDepth + 1,
                                 indentLevel := opts.indentLevel + 1 }
    String.intercalate (if opts.prettify then "\n" else "")
      (genChildrenList f.child childOpts)
termination_by (sizeOf f, 1)
decreasing_by
  all_goals (simp_wf; apply Prod.Lex.left; exact sizeOf_child_lt f)

/-- The while loop of `generateChildren`: walk the sibling chain, keeping
the non-empty child renderings in order. -/
def genChildrenList : Option Fiber → JSXOptions → List String
  | none, _ => []
  | some (.mk t ty ety pr ms ch sib), copts =>
    let childJSX := generateJSX (some (.mk t ty ety pr ms ch sib)) copts
    if childJSX = "" then genChildrenList sib copts
    else childJSX :: genChildrenList sib copts
termination_by c? opts => (sizeOf c?, 1)
decreasing_by
  all_goals simp_wf
  all_goals
    first
    | (apply Prod.Lex.right; omega)
    | (apply Prod.Lex.left; simp_arith)

end

end JSXGenerator

/-- Joining an empty list of rendered children gives the empty string. -/
lemma strIntercalate_nil (sep : String) : String.intercalate sep [] = "" := rfl

/-- C4: a host fiber whose synthesized children text is empty renders as a
single self-closed tag exactly when its lowercased tag name is in the
fixed self-closing set (area, base, br, col, embed, hr, img, input, link,
meta, param, source, track, wbr), and as an explicit empty open/close
pair otherwise; in particular a childless img host renders self-closed
and a childless div host renders as an open/close pair. -/
theorem claim4_self_closing_tags :
    (∀ t : String, JSXGenerator.isSelfClosingTag t =
      JSXGenerator.selfClosingTags.contains (lowerStr t)) ∧
    (∀ (f : Fiber) (opts : JSXGenerator.JSXOptions) (t : String),
      f.tag = 5 → f.type = .str t → t ≠ "" →
      opts.currentDepth < opts.maxDepth →
      JSXGenerator.generateChildren f opts = "" →
      JSXGenerator.generateJSX (some f) opts =
        (let ind := if opts.prettify then JSXGenerator.indent opts.indentLevel
                    else ""
         let attributes := JSXGenerator.propsToJSXAttributes
           (JSXGenerator.fieldsOf (jsOr f.memoizedProps (.obj []))) opts
         if JSXGenerator.isSelfClosingTag t then
           ind ++ "<" ++ t ++ attributes ++ " />"
         else
           ind ++ "<" ++ t ++ attributes ++ "></" ++ t ++ ">")) ∧
    JSXGenerator.generateJSX
      (some (.mk 5 (.str "img") .null (.obj []) [] none none))
      JSXGenerator.DEFAULT_OPTIONS = "<img />" ∧
    JSXGenerator.generateJSX
      (some (.mk 5 (.str "div") .null (.obj []) [] none none))
      JSXGenerator.DEFAULT_OPTIONS = "<div></div>" := by
  refine ⟨fun t => rfl, ?_, ?_, ?_⟩
  · intro f opts t htag htype hne hdepth hch
    rw [JSXGenerator.generateJSX]
    rw [if_neg (by omega)]
    rw [if_neg (by simp [isTextNode, htag]),
        if_neg (by simp [isFragment, htag]),
        if_pos (by simp [isHostFiber, htag])]
    rw [JSXGenerator.generateHostElement]
    rw [htype]
    simp only [hch]
    rw [if_neg hne]
    by_cases hsc : JSXGenerator.isSelfClosingTag t = true
    · simp [hsc]
    · simp [hsc]
  · simp [JSXGenerator.generateJSX, JSXGenerator.generateHostElement,
          JSXGenerator.generateChildren, JSXGenerator.genChildrenList,
          JSXGenerator.propsToJSXAttributes, JSXGenerator.fieldsOf,
          JSXGenerator.isSelfClosingTag, JSXGenerator.selfClosingTags,
          JSXGenerator.indent, JSXGenerator.DEFAULT_OPTIONS,
          isTextNode, isFragment, isHostFiber, Fiber.tag, Fiber.type,
          Fiber.memoizedProps, Fiber.child, jsOr, truthy, lowerStr,
          charLowerAscii, strIntercalate_nil]
  · simp [JSXGenerator.generateJSX, JSXGenerator.generateHostElement,
          JSXGenerator.generateChildren, JSXGenerator.genChildrenList,
          JSXGenerator.propsToJSXAttributes, JSXGenerator.fieldsOf,
          JSXGenerator.isSelfClosingTag, JSXGenerator.selfClosingTags,
          JSXGenerator.indent, JSXGenerator.DEFAULT_OPTIONS,
          isTextNode, isFragment, isHostFiber, Fiber.tag, Fiber.type,
          Fiber.memoizedProps, Fiber.child, jsOr, truthy, lowerStr,
          charLowerAscii, strIntercalate_nil]

/-- Witness for C4: the general host rule applied to a childless input
host fiber (input is in the self-closing set) yields the self-closed
form. -/
theorem claim4_self_closing_tags_witness :
    JSXGenerator.generateJSX
      (some (.mk 5 (.str "input") .null (.obj []) [] none none))
      JSXGenerator.DEFAULT_OPTIONS = "<input />" := by
  have h := claim4_self_closing_tags.2.1
    (.mk 5 (.str "input") .null (.obj []) [] none none)
    JSXGenerator.DEFAULT_OPTIONS "input" rfl rfl (by decide) (by decide)
    (by simp [JSXGenerator.generateChildren, JSXGenerator.genChildrenList,
              JSXGenerator.DEFAULT_OPTIONS, Fiber.child, strIntercalate_nil])
  rw [h]
  simp [JSXGenerator.isSelfClosingTag, JSXGenerator.selfClosingTags,
        JSXGenerator.propsToJSXAttributes, JSXGenerator.fieldsOf,
        JSXGenerator.indent, JSXGenerator.DEFAULT_OPTIONS,
        Fiber.memoizedProps, jsOr, truthy, lowerStr, charLowerAscii]

/-- Pruning of a fiber chain at a remaining depth budget: at budget zero
the node is replaced by a blank placeholder node (its fields can no longer
influence the output, only the length of the sibling chain can), at a
positive budget the node is kept with its child chain pruned at one less
and its sibling chain pruned at the same budget. Equality of `generateJSX`
under this pruning states that synthesis never reads anything of the tree
beyond the depth budget. -/
def pruneChain : Nat → Option Fiber → Option Fiber
  | _, none => none
  | 0, some (.mk _ _ _ _ _ _ sib) =>
    some (.mk 0 .null .null .null [] none (pruneChain 0 sib))
  | r + 1, some (.mk t ty ety pr ms ch sib) =>
    some (.mk t ty ety pr ms (pruneChain r ch) (pruneChain (r + 1) sib))
termination_by r c? => sizeOf c?
decreasing_by
  all_goals simp_arith

/-- Children synthesis is insensitive to everything except the rendered
child list. -/
lemma generateChildren_eq_of (f g : Fiber) (opts : JSXGenerator.JSXOptions)
    (hc : JSXGenerator.genChildrenList f.child
        { opts with currentDepth := opts.currentDepth + 1,
                     indentLevel := opts.indentLevel + 1 } =
      JSXGenerator.genChildrenList g.child
        { opts with currentDepth := opts.currentDepth + 1,
                     indentLevel := opts.indentLevel + 1 }) :
    JSXGenerator.generateChildren f opts =
      JSXGenerator.generateChildren g opts := by
  rw [JSXGenerator.generateChildren, JSXGenerator.generateChildren]
  simp only [hc]

/-- Text-node synthesis reads only the memoizedProps payload. -/
lemma generateTextNode_eq_of (f g : Fiber) (opts : JSXGenerator.JSXOptions)
    (hpr : f.memoizedProps = g.memoizedProps) :
    JSXGenerator.generateTextNode f opts =
      JSXGenerator.generateTextNode g opts := by
  rw [JSXGenerator.generateTextNode, JSXGenerator.generateTextNode, hpr]

/-- Fragment synthesis reads only the children text. -/
lemma generateFragment_eq_of (f g : Fiber) (opts : JSXGenerator.JSXOptions)
    (hch : JSXGenerator.generateChildren f opts =
      JSXGenerator.generateChildren g opts) :
    JSXGenerator.generateFragment f opts =
      JSXGenerator.generateFragment g opts := by
  rw [JSXGenerator.generateFragment, JSXGenerator.generateFragment, hch]

/-- Host-element synthesis reads only the tag, the props and the children
text. -/
lemma generateHostElement_eq_of (f g : Fiber)
    (opts : JSXGenerator.JSXOptions) (hty : f.type = g.type)
    (hpr : f.memoizedProps = g.memoizedProps)
    (hch : JSXGenerator.generateChildren f opts =
      JSXGenerator.generateChildren g opts) :
    JSXGenerator.generateHostElement f opts =
      JSXGenerator.generateHostElement g opts := by
  rw [JSXGenerator.generateHostElement, JSXGenerator.generateHostElement,
      hty, hpr, hch]

/-- Name resolution reads only the tag, type and elementType fields. -/
lemma getComponentName_eq_of (f g : Fiber) (htag : f.tag = g.tag)
    (hty : f.type = g.type) (hety : f.elementType = g.elementType) :
    getComponentName f = getComponentName g := by
  simp only [getComponentName, htag, hty, hety]

/-- Custom-component synthesis reads only the tag, type, elementType,
props and children text. -/
lemma generateComponent_eq_of (f g : Fiber)
    (opts : JSXGenerator.JSXOptions) (htag : f.tag = g.tag)
    (hty : f.type = g.type) (hety : f.elementType = g.elementType)
    (hpr : f.memoizedProps = g.memoizedProps)
    (hch : JSXGenerator.generateChildren f opts =
      JSXGenerator.generateChildren g opts) :
    JSXGenerator.generateComponent f opts =
      JSXGenerator.generateComponent g opts := by
  have hname := getComponentName_eq_of f g htag hty hety
  rw [JSXGenerator.generateComponent, JSXGenerator.generateComponent,
      hname, hpr, hch]

/-- Below the depth limit, the renderer dispatches purely on the fiber
tag. -/
lemma generateJSX_dispatch (f : Fiber) (opts : JSXGenerator.JSXOptions)
    (h : opts.currentDepth < opts.maxDepth) :
    JSXGenerator.generateJSX (some f) opts =
      (if f.tag = 6 then JSXGenerator.generateTextNode f opts
       else if f.tag = 7 then JSXGenerator.generateFragment f opts
       else if f.tag = 5 then JSXGenerator.generateHostElement f opts
       else JSXGenerator.generateComponent f opts) := by
  rw [JSXGenerator.generateJSX, if_neg (by omega)]
  simp [isTextNode, isFragment, isHostFiber]

/-- The simultaneous prune-equality statement for the renderer and for the
children loop, staged by a size bound for the induction. -/
lemma prune_main : ∀ n : Nat,
    (∀ (f? : Option Fiber) (r : Nat) (opts : JSXGenerator.JSXOptions),
      sizeOf f? ≤ n → opts.maxDepth = opts.currentDepth + r →
      JSXGenerator.generateJSX f? opts =
        JSXGenerator.generateJSX (pruneChain r f?) opts) ∧
    (∀ (c? : Option Fiber) (r : Nat) (copts : JSXGenerator.JSXOptions),
      sizeOf c? ≤ n → copts.maxDepth = copts.currentDepth + r →
      JSXGenerator.genChildrenList c? copts =
        JSXGenerator.genChildrenList (pruneChain r c?) copts) := by
  intro n
  induction n with
  | zero =>
    constructor
    · intro f? r opts hsz
      exact absurd hsz (by cases f? <;> simp_arith)
    · intro c? r copts hsz
      exact absurd hsz (by cases c? <;> simp_arith)
  | succ n ihn =>
    obtain ⟨ihA, ihB⟩ := ihn
    have hA : ∀ (f? : Option Fiber) (r : Nat)
        (opts : JSXGenerator.JSXOptions),
        sizeOf f? ≤ n + 1 → opts.maxDepth = opts.currentDepth + r →
        JSXGenerator.generateJSX f? opts =
          JSXGenerator.generateJSX (pruneChain r f?) opts := by
      intro f? r opts hsz hrel
      cases f? with
      | none => cases r <;> simp [pruneChain]
      | some f =>
        rcases f with ⟨t, ty, ety, pr, ms, ch, sib⟩
        cases r with
        | zero =>
          rw [show pruneChain 0 (some (.mk t ty ety pr ms ch sib)) =
              some (.mk 0 .null .null .null [] none (pruneChain 0 sib)) by
            simp [pruneChain]]
          rw [JSXGenerator.generateJSX, JSXGenerator.generateJSX]
          rw [if_pos (show opts.maxDepth ≤ opts.currentDepth by omega)]
          rw [if_pos (show opts.maxDepth ≤ opts.currentDepth by omega)]
        | succ r' =>
          rw [show pruneChain (r' + 1) (some (.mk t ty ety pr ms ch sib)) =
              some (.mk t ty ety pr ms (pruneChain r' ch)
                (pruneChain (r' + 1) sib)) by simp [pruneChain]]
          have hch2 : JSXGenerator.generateChildren
              (.mk t ty ety pr ms ch sib) opts =
              JSXGenerator.generateChildren
                (.mk t ty ety pr ms (pruneChain r' ch)
                  (pruneChain (r' + 1) sib)) opts := by
            apply generateChildren_eq_of
            show JSXGenerator.genChildrenList ch _ =
              JSXGenerator.genChildrenList (pruneChain r' ch) _
            apply ihB ch r'
            · have h1 : sizeOf ch <
                  sizeOf (Fiber.mk t ty ety pr ms ch sib) := by
                simp_arith
              have h2 : sizeOf (Fiber.mk t ty ety pr ms ch sib) <
                  sizeOf (some (Fiber.mk t ty ety pr ms ch sib)) := by
                simp_arith
              omega
            · simp
              omega
          rw [generateJSX_dispatch _ opts (by omega),
              generateJSX_dispatch _ opts (by omega)]
          simp only [Fiber.tag]
          by_cases h6 : t = 6
          · rw [if_pos h6, if_pos h6]
            exact generateTextNode_eq_of _ _ opts rfl
          · rw [if_neg h6, if_neg h6]
            by_cases h7 : t = 7
            · rw [if_pos h7, if_pos h7]
              exact generateFragment_eq_of _ _ opts hch2
            · rw [if_neg h7, if_neg h7]
              by_cases h5 : t = 5
              · rw [if_pos h5, if_pos h5]
                exact generateHostElement_eq_of _ _ opts rfl rfl hch2
              · rw [if_neg h5, if_neg h5]
                exact generateComponent_eq_of _ _ opts rfl rfl rfl rfl hch2
    have hB : ∀ (c? : Option Fiber) (r : Nat)
        (copts : JSXGenerator.JSXOptions),
        sizeOf c? ≤ n + 1 → copts.maxDepth = copts.currentDepth + r →
        JSXGenerator.genChildrenList c? copts =
          JSXGenerator.genChildrenList (pruneChain r c?) copts := by
      intro c? r copts hsz hrel
      cases c? with
      | none => cases r <;> simp [pruneChain]
      | some c =>
        rcases c with ⟨t, ty, ety, pr, ms, ch, sib⟩
        have hhead := hA (some (.mk t ty ety pr ms ch sib)) r copts hsz hrel
        have hsib : sizeOf sib ≤ n := by
          have h1 : sizeOf sib < sizeOf (Fiber.mk t ty ety pr ms ch sib) := by
            simp_arith
          have h2 : sizeOf (Fiber.mk t ty ety pr ms ch sib) <
              sizeOf (some (Fiber.mk t ty ety pr ms ch sib)) := by
            simp_arith
          omega
        have htail := ihB sib r copts hsib hrel
        cases r with
        | zero =>
          have hpe : pruneChain 0 (some (.mk t ty ety pr ms ch sib)) =
              some (.mk 0 .null .null .null [] none (pruneChain 0 sib)) := by
            simp [pruneChain]
          rw [hpe] at hhead
          rw [hpe]
          rw [JSXGenerator.genChildrenList, JSXGenerator.genChildrenList]
          rw [hhead, htail]
        | succ r' =>
          have hpe : pruneChain (r' + 1) (some (.mk t ty ety pr ms ch sib)) =
              some (.mk t ty ety pr ms (pruneChain r' ch)
                (pruneChain (r' + 1) sib)) := by
            simp [pruneChain]
          rw [hpe] at hhead
          rw [hpe]
          rw [JSXGenerator.genChildrenList, JSXGenerator.genChildrenList]
          rw [hhead, htail]
    exact ⟨hA, hB⟩

/-- A rendered truncation placeholder is never the empty string. -/
lemma indent_marker_ne_empty (l : Nat) :
    JSXGenerator.indent l ++ "\x7b/* Max depth reached */\x7d" ≠ "" := by
  intro hcon
  have hlen := congrArg String.length hcon
  rw [String.length_append] at hlen
  have hm : ("\x7b/* Max depth reached */\x7d" : String).length = 25 := by
    decide
  have h0 : ("" : String).length = 0 := rfl
  omega

/-- Staged form of the truncation-frontier property of the children
loop. -/
lemma genChildrenList_frontier_aux : ∀ (n : Nat) (c? : Option Fiber)
    (copts : JSXGenerator.JSXOptions), sizeOf c? ≤ n →
    copts.maxDepth ≤ copts.currentDepth → copts.prettify = true →
    JSXGenerator.genChildrenList c? copts =
      List.replicate (chainCount c?)
        (JSXGenerator.indent copts.indentLevel ++
          "\x7b/* Max depth reached */\x7d") := by
  intro n
  induction n with
  | zero =>
    intro c? copts hsz
    exact absurd hsz (by cases c? <;> simp_arith)
  | succ n ih =>
    intro c? copts hsz h hp
    cases c? with
    | none => simp [JSXGenerator.genChildrenList, chainCount]
    | some c =>
      rcases c with ⟨t, ty, ety, pr, ms, ch, sib⟩
      have hszsib : sizeOf sib ≤ n := by
        have h1 : sizeOf sib < sizeOf (Fiber.mk t ty ety pr ms ch sib) := by
          simp_arith
        have h2 : sizeOf (Fiber.mk t ty ety pr ms ch sib) <
            sizeOf (some (Fiber.mk t ty ety pr ms ch sib)) := by
          simp_arith
        omega
      have hhead : JSXGenerator.generateJSX
          (some (Fiber.mk t ty ety pr ms ch sib)) copts =
          JSXGenerator.indent copts.indentLevel ++
            "\x7b/* Max depth reached */\x7d" := by
        rw [JSXGenerator.generateJSX, if_pos h, if_pos hp]
      have htail := ih sib copts hszsib h hp
      rw [JSXGenerator.genChildrenList]
      simp only [hhead, htail]
      rw [if_neg (indent_marker_ne_empty copts.indentLevel)]
      simp [chainCount, List.replicate_succ, Nat.add_comm]

/-- At the truncation frontier (children rendered at the depth limit, with
prettify on), the children loop yields exactly one placeholder per chain
entry. -/
lemma genChildrenList_frontier (c? : Option Fiber)
    (copts : JSXGenerator.JSXOptions)
    (h : copts.maxDepth ≤ copts.currentDepth) (hp : copts.prettify = true) :
    JSXGenerator.genChildrenList c? copts =
      List.replicate (chainCount c?)
        (JSXGenerator.indent copts.indentLevel ++
          "\x7b/* Max depth reached */\x7d") :=
  genChildrenList_frontier_aux (sizeOf c?) c? copts (le_refl _) h hp

/-- C2: when `generateJSX` reaches the depth limit it emits only the
indented truncation placeholder comment when prettifying, or the empty
string otherwise, and it never dispatches on the node: the output there is
independent of the fiber. Consequently the whole synthesis depends only on
the tree pruned at the remaining depth budget (it never recurses into a
node whose depth exceeds maxDepth), and at the truncation frontier the
children walk emits exactly one placeholder marker per truncated child. -/
theorem claim2_depth_guard :
    (∀ (f : Fiber) (opts : JSXGenerator.JSXOptions),
      opts.maxDepth ≤ opts.currentDepth →
      JSXGenerator.generateJSX (some f) opts =
        (if opts.prettify then
          JSXGenerator.indent opts.indentLevel ++
            "\x7b/* Max depth reached */\x7d"
         else "")) ∧
    (∀ (f g : Fiber) (opts : JSXGenerator.JSXOptions),
      opts.maxDepth ≤ opts.currentDepth →
      JSXGenerator.generateJSX (some f) opts =
        JSXGenerator.generateJSX (some g) opts) ∧
    (∀ (f? : Option Fiber) (r : Nat) (opts : JSXGenerator.JSXOptions),
      opts.maxDepth = opts.currentDepth + r →
      JSXGenerator.generateJSX f? opts =
        JSXGenerator.generateJSX (pruneChain r f?) opts) ∧
    (∀ (f : Fiber) (opts : JSXGenerator.JSXOptions),
      opts.prettify = true → opts.includeChildren = true →
      opts.useChildPlaceholders = false →
      opts.currentDepth + 1 = opts.maxDepth →
      JSXGenerator.generateChildren f opts =
        String.intercalate "\n" (List.replicate (countChildren f)
          (JSXGenerator.indent (opts.indentLevel + 1) ++
            "\x7b/* Max depth reached */\x7d"))) := by
  have hguard : ∀ (f : Fiber) (opts : JSXGenerator.JSXOptions),
      opts.maxDepth ≤ opts.currentDepth →
      JSXGenerator.generateJSX (some f) opts =
        (if opts.prettify then
          JSXGenerator.indent opts.indentLevel ++
            "\x7b/* Max depth reached */\x7d"
         else "") := by
    intro f opts h
    rw [JSXGenerator.generateJSX, if_pos h]
  refine ⟨hguard, ?_, ?_, ?_⟩
  · intro f g opts h
    rw [hguard f opts h, hguard g opts h]
  · intro f? r opts hrel
    exact (prune_main (sizeOf f?)).1 f? r opts (le_refl _) hrel
  · intro f opts hp hinc hucp hdep
    rw [JSXGenerator.generateChildren]
    rw [if_neg (by simp [hinc]), if_neg (by simp [hucp])]
    have hfr := genChildrenList_frontier f.child
      { opts with currentDepth := opts.currentDepth + 1,
                   indentLevel := opts.indentLevel + 1 }
      (by simp; omega) (by simp [hp])
    simp only [hp] at hfr ⊢
    rw [hfr]
    rfl

/-- Witness for C2: at the depth limit, a concrete host fiber renders to
exactly the indented truncation placeholder. -/
theorem claim2_depth_guard_witness :
    JSXGenerator.generateJSX
      (some (.mk 5 (.str "div") .null (.obj []) [] none none))
      ⟨3, 3, true, .deep, true, 1, false, true, true, false⟩ =
      "  \x7b/* Max depth reached */\x7d" := by
  have h := claim2_depth_guard.1
    (.mk 5 (.str "div") .null (.obj []) [] none none)
    ⟨3, 3, true, .deep, true, 1, false, true, true, false⟩
    (by decide)
  rw [h]
  simp [JSXGenerator.indent]
